import Mathlib

set_option maxRecDepth 100000

namespace NimbusMCP

/-! # Verification of the NimbusMCP weather service

Shallow embedding of the text-formatting, text-parsing and dispatch logic
of `weather_mcp_server.py` and `llm_weather_client.py`.  The report
renderer and the rule engine communicate through plain Python strings, so
we first model the Python string operations the sources use, working over
`List Char`. -/

/-! ## Python string primitives -/

/-- Boolean prefix test on character lists; models Python's substring
matching at a fixed position (used to model `in` and `str.split`). -/
def prefB : List Char → List Char → Bool
  | [], _ => true
  | _ :: _, [] => false
  | a :: as, b :: bs => a == b && prefB as bs

/-- Model of the Python substring test `p in l` for strings: `p` occurs
contiguously somewhere in `l`. -/
def subB (p : List Char) : List Char → Bool
  | [] => prefB p []
  | c :: cs => prefB p (c :: cs) || subB p cs

/-- Worker for `pySplit`.  The second list is the input; the counter is
the number of separator characters still to be skipped after a match was
emitted.  Each recursive call consumes one character of the input, so the
recursion is structural. -/
def splitSGo (sep : List Char) : List Char → ℕ → List (List Char)
  | [], _ => [[]]
  | _ :: cs, k + 1 => splitSGo sep cs k
  | c :: cs, 0 =>
    if !sep.isEmpty && prefB sep (c :: cs) then
      [] :: splitSGo sep cs (sep.length - 1)
    else
      match splitSGo sep cs 0 with
      | [] => [[c]]
      | h :: t => (c :: h) :: t

/-- Model of Python `str.split(sep)` for a non-empty separator: split at
every non-overlapping occurrence of `sep`, scanning left to right,
keeping empty fields.  (Python raises on an empty separator; the sources
never pass one.) -/
def pySplit (sep l : List Char) : List (List Char) := splitSGo sep l 0

/-- Model of Python `str.split(sep, 1)` for a one-character separator:
split at the first occurrence only. -/
def pySplitOnce (c : Char) (l : List Char) : List (List Char) :=
  match l.dropWhile (fun x => !(x == c)) with
  | [] => [l]
  | _ :: after => [l.takeWhile (fun x => !(x == c)), after]

/-- Worker for `pyWsTokens`; the accumulator holds the current token
reversed. -/
def splitWsGo : List Char → List Char → List (List Char)
  | [], acc => if acc.isEmpty then [] else [acc.reverse]
  | c :: cs, acc =>
    if c.isWhitespace then
      if acc.isEmpty then splitWsGo cs [] else acc.reverse :: splitWsGo cs []
    else splitWsGo cs (c :: acc)

/-- Model of Python `str.split()` with no argument: tokens separated by
runs of whitespace, with no empty tokens. -/
def pyWsTokens (l : List Char) : List (List Char) := splitWsGo l []

/-- Strip characters satisfying `p` from the right end; models Python
`str.rstrip`. -/
def pyRtrim (p : Char → Bool) (l : List Char) : List Char :=
  (l.reverse.dropWhile p).reverse

/-- Strip characters satisfying `p` from both ends; models Python
`str.strip` (with no argument when `p` is `Char.isWhitespace`, and
`str.strip(chars)` when `p` is membership in `chars`). -/
def pyTrim (p : Char → Bool) (l : List Char) : List Char :=
  pyRtrim p (l.dropWhile p)

/-- Model of Python `"sep".join`: interleave `sep` between the pieces. -/
def joinSep (sep : List Char) : List (List Char) → List Char
  | [] => []
  | [x] => x
  | x :: y :: t => x ++ sep ++ joinSep sep (y :: t)

/-! ## Decimal numerals

Every number the renderer interpolates into the report is printed by
Python's `str`: an optional sign, a non-empty run of decimal digits, and
(for floats) a point followed by a non-empty run of digits.  `Dec` is
exactly that shape; `Dec.val` is the rational it denotes. -/

/-- The character of a decimal digit. -/
def finDigitChar (d : Fin 10) : Char := Char.ofNat (48 + d.val)

/-- Value of a most-significant-first digit list. -/
def digitsVal (ds : List (Fin 10)) : ℕ :=
  ds.foldl (fun a d => 10 * a + d.val) 0

/-- The characters of a digit list. -/
def digitsChars (ds : List (Fin 10)) : List Char := ds.map finDigitChar

/-- Numeric value of a digit character. -/
def charDigitVal (c : Char) : ℕ := c.toNat - 48

/-- Value of a list of digit characters, most significant first. -/
def natOfChars (l : List Char) : ℕ :=
  l.foldl (fun a c => 10 * a + charDigitVal c) 0

/-- Apply a sign flag to a rational. -/
def sgnApply (b : Bool) (q : ℚ) : ℚ := if b then -q else q

/-- A decimal numeral as printed by Python `str` on a float: optional
minus sign, integer digits, point, fraction digits. -/
structure Dec where
  neg : Bool
  ip : List (Fin 10)
  fp : List (Fin 10)

/-- The characters Python prints for the numeral. -/
def Dec.chars (d : Dec) : List Char :=
  (if d.neg then ['-'] else []) ++ digitsChars d.ip ++ '.' :: digitsChars d.fp

/-- The rational value of the numeral: `ip.fp = (ip·10^k + fp) / 10^k`. -/
def Dec.val (d : Dec) : ℚ :=
  sgnApply d.neg
    (mkRat (digitsVal d.ip * 10 ^ d.fp.length + digitsVal d.fp : ℕ) (10 ^ d.fp.length))

/-- A decimal numeral is well formed when both digit runs are non-empty,
as in every float Python prints. -/
def Dec.wf (d : Dec) : Prop := d.ip ≠ [] ∧ d.fp ≠ []

/-- Consume an optional leading sign; the flag records a minus. -/
def pySign (l : List Char) : Bool × List Char :=
  match l with
  | [] => (false, [])
  | c :: r =>
    if c = '-' then (true, r) else if c = '+' then (false, r) else (false, c :: r)

/-- Model of Python `float()` restricted to decimal literals (optional
sign, digits, optional point and digits, surrounding whitespace
ignored); every other input is rejected.  Python additionally accepts
exponent and infinity forms that never arise in this code base. -/
def pyFloat (l : List Char) : Option ℚ :=
  let t := pyTrim (fun c => c.isWhitespace) l
  let sc := pySign t
  let ip := sc.2.takeWhile Char.isDigit
  let rest := sc.2.dropWhile Char.isDigit
  match rest with
  | [] => if ip.isEmpty then none else some (sgnApply sc.1 (mkRat (natOfChars ip) 1))
  | r :: r2 =>
    if r = '.' then
      let fp := r2.takeWhile Char.isDigit
      let rest2 := r2.dropWhile Char.isDigit
      if rest2.isEmpty && !(ip.isEmpty && fp.isEmpty) then
        some (sgnApply sc.1
          (mkRat (natOfChars ip * 10 ^ fp.length + natOfChars fp : ℕ) (10 ^ fp.length)))
      else none
    else none

/-- Model of Python `int()` on strings: optional sign and a non-empty
run of decimal digits, surrounding whitespace ignored. -/
def pyInt (l : List Char) : Option ℤ :=
  let t := pyTrim (fun c => c.isWhitespace) l
  let sc := pySign t
  if !sc.2.isEmpty && sc.2.all Char.isDigit then
    some ((if sc.1 then (-1 : ℤ) else 1) * (natOfChars sc.2 : ℤ))
  else none

/-! ## Lemmas about the string primitives -/

theorem prefB_append (p t : List Char) : prefB p (p ++ t) = true := by
  induction p with
  | nil => rfl
  | cons a as ih => simp [prefB, ih]

theorem prefB_head_ne (a : Char) (as : List Char) (b : Char) (bs : List Char)
    (h : a ≠ b) : prefB (a :: as) (b :: bs) = false := by
  simp [prefB, h]

theorem subB_nil_left (l : List Char) : subB [] l = true := by
  cases l <;> simp [subB, prefB]

theorem subB_eq_false_of_head_not_mem (c : Char) (p l : List Char) (h : c ∉ l) :
    subB (c :: p) l = false := by
  induction l with
  | nil => rfl
  | cons x xs ih =>
    have hx : c ≠ x := by rintro rfl; exact h (List.mem_cons_self _ _)
    have hxs : c ∉ xs := fun hc => h (List.mem_cons_of_mem x hc)
    simp [subB, prefB_head_ne c p x xs hx, ih hxs]

theorem prefB_append_right (p l t : List Char) (h : prefB p l = true) :
    prefB p (l ++ t) = true := by
  induction p generalizing l with
  | nil => rfl
  | cons a as ih =>
    cases l with
    | nil => simp [prefB] at h
    | cons b bs =>
      simp only [prefB, Bool.and_eq_true] at h
      simp [prefB, h.1, ih bs h.2]

theorem subB_append_right (p a b : List Char) (h : subB p a = true) :
    subB p (a ++ b) = true := by
  induction a with
  | nil =>
    cases p with
    | nil => exact subB_nil_left b
    | cons x xs => simp [subB, prefB] at h
  | cons x xs ih =>
    simp only [subB, Bool.or_eq_true] at h
    rcases h with h | h
    · have h2 := prefB_append_right p (x :: xs) b h
      simp only [List.cons_append] at h2
      simp [subB, h2]
    · simp [subB, ih h]

theorem splitSGo_ne_nil (sep l : List Char) (k : ℕ) : splitSGo sep l k ≠ [] := by
  induction l generalizing k with
  | nil => simp [splitSGo]
  | cons c cs ih =>
    cases k with
    | succ k => simpa [splitSGo] using ih k
    | zero =>
      by_cases h : (!sep.isEmpty && prefB sep (c :: cs)) = true
      · simp [splitSGo, h]
      · simp only [splitSGo, h]
        simp only [Bool.not_eq_true] at h
        rw [if_neg (by simp [h])]
        rcases hs : splitSGo sep cs 0 with _ | ⟨x, xs⟩
        · simp
        · simp

theorem splitSGo_skip (sep a l : List Char) :
    splitSGo sep (a ++ l) a.length = splitSGo sep l 0 := by
  induction a with
  | nil => rfl
  | cons x xs ih => simpa [splitSGo] using ih

theorem splitSGo_no_occ (c : Char) (p l : List Char) (h : c ∉ l) :
    splitSGo (c :: p) l 0 = [l] := by
  induction l with
  | nil => rfl
  | cons x xs ih =>
    have hx : x ≠ c := fun hc => h (hc ▸ List.mem_cons_self x xs)
    have hxs : c ∉ xs := fun hc => h (List.mem_cons_of_mem x hc)
    have hpref : prefB (c :: p) (x :: xs) = false :=
      prefB_head_ne c p x xs (fun hcx => hx hcx.symm)
    simp [splitSGo, hpref, ih hxs]

theorem splitSGo_first (c : Char) (p xs ys : List Char) (h : c ∉ xs) :
    splitSGo (c :: p) (xs ++ (c :: p) ++ ys) 0 = xs :: splitSGo (c :: p) ys 0 := by
  induction xs with
  | nil =>
    show splitSGo (c :: p) (c :: (p ++ ys)) 0 = [] :: splitSGo (c :: p) ys 0
    have hpref : prefB (c :: p) (c :: (p ++ ys)) = true := by
      have := prefB_append (c :: p) ys
      simpa using this
    have hcond : (!(c :: p).isEmpty && prefB (c :: p) (c :: (p ++ ys))) = true := by
      simp [hpref]
    have hskip : splitSGo (c :: p) (p ++ ys) p.length = splitSGo (c :: p) ys 0 :=
      splitSGo_skip _ _ _
    simp only [splitSGo, hcond, if_true]
    simpa using hskip
  | cons x xt ih =>
    have hc : c ∉ x :: xt := h
    have hx : c ≠ x := by rintro rfl; exact hc (List.mem_cons_self _ _)
    have hxt : c ∉ xt := fun hm => hc (List.mem_cons_of_mem x hm)
    have hpref : prefB (c :: p) (x :: (xt ++ c :: (p ++ ys))) = false :=
      prefB_head_ne c p x _ hx
    have hrec := ih hxt
    simp only [List.cons_append, List.append_assoc] at hrec ⊢
    have hcond : (!(c :: p).isEmpty &&
        prefB (c :: p) (x :: (xt ++ c :: (p ++ ys)))) = false := by
      simp [hpref]
    simp only [splitSGo, hcond, if_false, Bool.false_eq_true]
    rw [hrec]

theorem pySplit_join (c : Char) (ls : List (List Char)) (hne : ls ≠ [])
    (h : ∀ x ∈ ls, c ∉ x) :
    pySplit [c] (joinSep [c] ls) = ls := by
  induction ls with
  | nil => exact absurd rfl hne
  | cons x t ih =>
    cases t with
    | nil =>
      simpa [pySplit, joinSep] using
        splitSGo_no_occ c [] x (h x (List.mem_cons_self _ _))
    | cons y tt =>
      have hx : c ∉ x := h x (List.mem_cons_self _ _)
      have ht : ∀ z ∈ y :: tt, c ∉ z := fun z hz => h z (List.mem_cons_of_mem x hz)
      have := splitSGo_first c [] x (joinSep [c] (y :: tt)) hx
      simp only [joinSep, pySplit]
      rw [this]
      have ihr := ih (by simp) ht
      simp only [pySplit] at ihr
      rw [ihr]

theorem pyTrim_noop (p : Char → Bool) (l : List Char)
    (h : ∀ x ∈ l, p x = false) : pyTrim p l = l := by
  have h1 : l.dropWhile p = l := by
    cases l with
    | nil => rfl
    | cons x xs => simp [List.dropWhile_cons, h x (List.mem_cons_self _ _)]
  have h2 : l.reverse.dropWhile p = l.reverse := by
    cases hr : l.reverse with
    | nil => rfl
    | cons x xs =>
      have hx : x ∈ l := by
        have : x ∈ l.reverse := by rw [hr]; exact List.mem_cons_self _ _
        simpa using this
      simp [List.dropWhile_cons, h x hx]
  simp [pyTrim, pyRtrim, h1, h2]

/-! ## Lemmas about decimal numerals -/

theorem mem_digitsChars (ds : List (Fin 10)) (c : Char) (h : c ∈ digitsChars ds) :
    ∃ d : Fin 10, c = finDigitChar d := by
  simp only [digitsChars, List.mem_map] at h
  rcases h with ⟨d, _, rfl⟩
  exact ⟨d, rfl⟩

theorem finDigitChar_isDigit (d : Fin 10) : (finDigitChar d).isDigit = true := by
  revert d; decide

theorem finDigitChar_not_ws (d : Fin 10) : (finDigitChar d).isWhitespace = false := by
  revert d; decide

theorem finDigitChar_ne (c : Char) (hc : c.isDigit = false) (d : Fin 10) :
    finDigitChar d ≠ c := by
  intro h
  rw [← h] at hc
  rw [finDigitChar_isDigit d] at hc
  cases hc

theorem not_mem_digitsChars (ds : List (Fin 10)) (c : Char) (hc : c.isDigit = false) :
    c ∉ digitsChars ds := by
  intro h
  rcases mem_digitsChars ds c h with ⟨d, rfl⟩
  rw [finDigitChar_isDigit d] at hc
  cases hc

theorem charDigitVal_finDigitChar (d : Fin 10) :
    charDigitVal (finDigitChar d) = d.val := by
  revert d; decide

theorem foldl_digitsChars (ds : List (Fin 10)) (a : ℕ) :
    (digitsChars ds).foldl (fun x c => 10 * x + charDigitVal c) a =
      ds.foldl (fun x d => 10 * x + d.val) a := by
  induction ds generalizing a with
  | nil => rfl
  | cons d t ih =>
    simp only [digitsChars, List.map_cons, List.foldl_cons, charDigitVal_finDigitChar]
    exact ih _

theorem natOfChars_digitsChars (ds : List (Fin 10)) :
    natOfChars (digitsChars ds) = digitsVal ds :=
  foldl_digitsChars ds 0

theorem natOfChars_map_fin (ds : List (Fin 10)) :
    natOfChars (List.map finDigitChar ds) = digitsVal ds :=
  natOfChars_digitsChars ds

theorem digitsChars_ne_nil (ds : List (Fin 10)) (h : ds ≠ []) :
    digitsChars ds ≠ [] := by
  simpa [digitsChars] using h

theorem takeWhile_append_all (p : Char → Bool) (a b : List Char)
    (h : ∀ x ∈ a, p x = true) : (a ++ b).takeWhile p = a ++ b.takeWhile p := by
  induction a with
  | nil => rfl
  | cons x xs ih =>
    have hx := h x (List.mem_cons_self _ _)
    simp only [List.cons_append, List.takeWhile_cons, hx, if_true]
    rw [ih fun y hy => h y (List.mem_cons_of_mem x hy)]

theorem dropWhile_append_all (p : Char → Bool) (a b : List Char)
    (h : ∀ x ∈ a, p x = true) : (a ++ b).dropWhile p = b.dropWhile p := by
  induction a with
  | nil => rfl
  | cons x xs ih =>
    have hx := h x (List.mem_cons_self _ _)
    simp only [List.cons_append, List.dropWhile_cons, hx, if_true]
    exact ih fun y hy => h y (List.mem_cons_of_mem x hy)

theorem takeWhile_all (p : Char → Bool) (a : List Char)
    (h : ∀ x ∈ a, p x = true) : a.takeWhile p = a := by
  have := takeWhile_append_all p a [] h
  simpa using this

theorem dropWhile_all (p : Char → Bool) (a : List Char)
    (h : ∀ x ∈ a, p x = true) : a.dropWhile p = [] := by
  have := dropWhile_append_all p a [] h
  simpa using this

theorem dec_chars_not_ws (d : Dec) : ∀ x ∈ d.chars, x.isWhitespace = false := by
  intro x hx
  simp only [Dec.chars] at hx
  rcases List.mem_append.mp hx with hx | hx
  · rcases List.mem_append.mp hx with hx | hx
    · rcases d.neg with _ | _ <;> simp_all
    · rcases mem_digitsChars _ _ hx with ⟨dd, rfl⟩
      exact finDigitChar_not_ws dd
  · rcases hx with _ | ⟨_, hx⟩
    · decide
    · rcases mem_digitsChars _ _ hx with ⟨dd, rfl⟩
      exact finDigitChar_not_ws dd

theorem pySign_digit_head (d : Fin 10) (r : List Char) :
    pySign (finDigitChar d :: r) = (false, finDigitChar d :: r) := by
  have h1 : finDigitChar d ≠ '-' := finDigitChar_ne '-' (by decide) d
  have h2 : finDigitChar d ≠ '+' := finDigitChar_ne '+' (by decide) d
  simp [pySign, h1, h2]

/-- The digits-and-dot tail of a printed decimal. -/
def decTail (d : Dec) : List Char := digitsChars d.ip ++ '.' :: digitsChars d.fp

theorem pySign_dec_chars (d : Dec) (h : d.ip ≠ []) :
    pySign d.chars = (d.neg, decTail d) := by
  rcases hip : d.ip with _ | ⟨i0, it⟩
  · exact absurd hip h
  · rcases hneg : d.neg with _ | _
    · have : d.chars = finDigitChar i0 :: (digitsChars it ++ '.' :: digitsChars d.fp) := by
        simp [Dec.chars, hneg, digitsChars, hip]
      rw [this]
      rw [pySign_digit_head]
      simp [decTail, digitsChars, hip]
    · have : d.chars = '-' :: (digitsChars d.ip ++ '.' :: digitsChars d.fp) := by
        simp [Dec.chars, hneg]
      rw [this]
      simp [pySign, decTail]

theorem pyFloat_dec_chars (d : Dec) (h1 : d.ip ≠ []) :
    pyFloat d.chars = some d.val := by
  have htrim : pyTrim (fun c => c.isWhitespace) d.chars = d.chars :=
    pyTrim_noop _ _ (dec_chars_not_ws d)
  have hip : ∀ x ∈ digitsChars d.ip, Char.isDigit x = true := by
    intro x hx
    rcases mem_digitsChars _ _ hx with ⟨dd, rfl⟩
    exact finDigitChar_isDigit dd
  have hfp : ∀ x ∈ digitsChars d.fp, Char.isDigit x = true := by
    intro x hx
    rcases mem_digitsChars _ _ hx with ⟨dd, rfl⟩
    exact finDigitChar_isDigit dd
  have htake : (decTail d).takeWhile Char.isDigit = digitsChars d.ip := by
    rw [decTail, takeWhile_append_all _ _ _ hip]
    simp [List.takeWhile_cons]
  have hdrop : (decTail d).dropWhile Char.isDigit = '.' :: digitsChars d.fp := by
    rw [decTail, dropWhile_append_all _ _ _ hip]
    simp [List.dropWhile_cons]
  simp only [pyFloat, htrim, pySign_dec_chars d h1, htake, hdrop]
  simp only [takeWhile_all _ _ hfp, dropWhile_all _ _ hfp, if_pos rfl]
  have hipne : (digitsChars d.ip).isEmpty = false := by
    rcases hip2 : d.ip with _ | _
    · exact absurd hip2 h1
    · simp [digitsChars, hip2]
  simp only [List.isEmpty_nil, hipne, Bool.false_and, Bool.not_false, Bool.and_true,
    if_pos rfl]
  simp [Dec.val, digitsChars, natOfChars_map_fin]

theorem pyFloat_dec_chars_junk (d : Dec) (j : Char) (h1 : d.ip ≠ [])
    (hjd : j.isDigit = false) (hjw : j.isWhitespace = false) :
    pyFloat (d.chars ++ [j]) = none := by
  have hnw : ∀ x ∈ d.chars ++ [j], x.isWhitespace = false := by
    intro x hx
    rcases List.mem_append.mp hx with hx | hx
    · exact dec_chars_not_ws d x hx
    · rcases hx with _ | ⟨_, hx⟩
      · exact hjw
      · cases hx
  have htrim : pyTrim (fun c => c.isWhitespace) (d.chars ++ [j]) = d.chars ++ [j] :=
    pyTrim_noop _ _ hnw
  have hip : ∀ x ∈ digitsChars d.ip, Char.isDigit x = true := by
    intro x hx
    rcases mem_digitsChars _ _ hx with ⟨dd, rfl⟩
    exact finDigitChar_isDigit dd
  have hfp : ∀ x ∈ digitsChars d.fp, Char.isDigit x = true := by
    intro x hx
    rcases mem_digitsChars _ _ hx with ⟨dd, rfl⟩
    exact finDigitChar_isDigit dd
  have hsign : pySign (d.chars ++ [j]) = (d.neg, decTail d ++ [j]) := by
    rcases hipc : d.ip with _ | ⟨i0, it⟩
    · exact absurd hipc h1
    · rcases hneg : d.neg with _ | _
      · have : d.chars ++ [j] =
            finDigitChar i0 :: (digitsChars it ++ '.' :: digitsChars d.fp ++ [j]) := by
          simp [Dec.chars, hneg, digitsChars, hipc]
        rw [this, pySign_digit_head]
        simp [decTail, digitsChars, hipc]
      · have : d.chars ++ [j] = '-' :: (digitsChars d.ip ++ '.' :: digitsChars d.fp ++ [j]) := by
          simp [Dec.chars, hneg]
        rw [this]
        simp [pySign, decTail]
  have htake : (decTail d ++ [j]).takeWhile Char.isDigit = digitsChars d.ip := by
    rw [decTail, List.append_assoc, takeWhile_append_all _ _ _ hip]
    simp [List.takeWhile_cons]
  have hdrop : (decTail d ++ [j]).dropWhile Char.isDigit =
      '.' :: (digitsChars d.fp ++ [j]) := by
    rw [decTail, List.append_assoc, dropWhile_append_all _ _ _ hip]
    simp [List.dropWhile_cons]
  simp only [pyFloat, htrim, hsign, htake, hdrop]
  have htake2 : (digitsChars d.fp ++ [j]).takeWhile Char.isDigit = digitsChars d.fp := by
    rw [takeWhile_append_all _ _ _ hfp]
    simp [List.takeWhile_cons, hjd]
  have hdrop2 : (digitsChars d.fp ++ [j]).dropWhile Char.isDigit = [j] := by
    rw [dropWhile_append_all _ _ _ hfp]
    simp [List.dropWhile_cons, hjd]
  simp [htake2, hdrop2]

theorem pyInt_digitsChars (ds : List (Fin 10)) (h : ds ≠ []) :
    pyInt (digitsChars ds) = some (digitsVal ds : ℤ) := by
  have hall : ∀ x ∈ digitsChars ds, Char.isDigit x = true := by
    intro x hx
    rcases mem_digitsChars _ _ hx with ⟨dd, rfl⟩
    exact finDigitChar_isDigit dd
  have hnw : ∀ x ∈ digitsChars ds, x.isWhitespace = false := by
    intro x hx
    rcases mem_digitsChars _ _ hx with ⟨dd, rfl⟩
    exact finDigitChar_not_ws dd
  have htrim : pyTrim (fun c => c.isWhitespace) (digitsChars ds) = digitsChars ds :=
    pyTrim_noop _ _ hnw
  rcases hd : ds with _ | ⟨d0, dt⟩
  · exact absurd hd h
  · have hchars : digitsChars ds = finDigitChar d0 :: digitsChars dt := by
      simp [digitsChars, hd]
    rw [← hd, pyInt]
    rw [htrim, hchars, pySign_digit_head]
    have : (finDigitChar d0 :: digitsChars dt).all Char.isDigit = true := by
      rw [List.all_eq_true]
      intro x hx
      exact hall x (by rw [hchars]; exact hx)
    simp only [this, List.isEmpty_cons, Bool.not_false, Bool.and_true, if_pos rfl]
    rw [← hchars, natOfChars_digitsChars]
    simp [hd]

/-! ## Weather Fetcher (`weather_mcp_server.py`, `_get_current_weather`)

Unit handling (lines 152-159, 179-180) and the canonical report
rendering (lines 182-188). -/

/-- Line 153: `api_units = None if units == "kelvin" else units`. -/
def api_units (units : String) : Option String :=
  if units = "kelvin" then none else some units

/-- Python truthiness of an `Optional[str]`: `None` and `""` are falsy. -/
def pyTruthyOptStr (o : Option String) : Bool :=
  match o with
  | none => false
  | some s => !(s = "")

/-- Lines 154-159: the query parameters sent to the upstream provider;
`units` is added only when `api_units` is truthy. -/
def requestParams (location apiKey units : String) : List (String × String) :=
  [("q", location), ("appid", apiKey)] ++
    (if pyTruthyOptStr (api_units units) then
      [("units", (api_units units).getD "")] else [])

/-- Line 179: `unit_symbol = "°C" if units == "metric" else "°F" if units
== "imperial" else "K"`. -/
def unit_symbol (units : String) : String :=
  if units = "metric" then "°C" else if units = "imperial" then "°F" else "K"

/-- Line 180: `wind_unit = "m/s" if units in ("metric", "kelvin") else
"mph"`. -/
def wind_unit (units : String) : String :=
  if units = "metric" ∨ units = "kelvin" then "m/s" else "mph"

/-- The `weather_info` fields interpolated into the report (lines
166-176).  Numeric fields are carried as the decimal numerals Python
prints for them; `visibility` is `none` when the provider omitted it
(rendered `N/A`). -/
structure WeatherReport where
  location : String
  temperature : Dec
  feels_like : Dec
  description : String
  humidity : List (Fin 10)
  wind_speed : Dec
  pressure : List (Fin 10)
  visibility : Option (List (Fin 10))
  units : String

/-- Title line of the formatted response (line 182). -/
def titleLine (r : WeatherReport) : List Char :=
  "Current Weather for ".data ++ r.location.data ++ [':']

/-- Temperature line (line 183). -/
def tempLine (r : WeatherReport) : List Char :=
  "🌡️ Temperature: ".data ++ r.temperature.chars ++ (unit_symbol r.units).data ++
    " (feels like ".data ++ r.feels_like.chars ++ (unit_symbol r.units).data ++ [')']

/-- Conditions line (line 184). -/
def condLine (r : WeatherReport) : List Char :=
  "🌤️ Conditions: ".data ++ r.description.data

/-- Humidity line (line 185). -/
def humLine (r : WeatherReport) : List Char :=
  "💧 Humidity: ".data ++ digitsChars r.humidity ++ ['%']

/-- Wind line (line 186). -/
def windLine (r : WeatherReport) : List Char :=
  "💨 Wind Speed: ".data ++ r.wind_speed.chars ++ [' '] ++ (wind_unit r.units).data

/-- Pressure line (line 187). -/
def presLine (r : WeatherReport) : List Char :=
  "🔽 Pressure: ".data ++ digitsChars r.pressure ++ " hPa".data

/-- Visibility line (line 188); `N/A` when the provider omitted the
field (line 174). -/
def visLine (r : WeatherReport) : List Char :=
  "👁️ Visibility: ".data ++
    (match r.visibility with
     | some v => digitsChars v
     | none => "N/A".data) ++ " meters".data

/-- The seven lines of the canonical current-weather report. -/
def reportLines (r : WeatherReport) : List (List Char) :=
  [titleLine r, tempLine r, condLine r, humLine r, windLine r, presLine r, visLine r]

/-- The canonical current-weather report text (`formatted_response`,
lines 182-188): the seven lines joined by newlines. -/
def formatted_response (r : WeatherReport) : String :=
  String.mk (joinSep ['\n'] (reportLines r))

/-- C8: for every units value in {metric, imperial, kelvin} the displayed
unit symbol is °C, °F, K respectively; the wind-speed label is m/s for
metric and kelvin and mph for imperial; and the provider units parameter
is sent verbatim for metric and imperial but omitted exactly for kelvin. -/
theorem c8_unit_mapping :
    unit_symbol "metric" = "°C" ∧ unit_symbol "imperial" = "°F" ∧
    unit_symbol "kelvin" = "K" ∧
    wind_unit "metric" = "m/s" ∧ wind_unit "kelvin" = "m/s" ∧
    wind_unit "imperial" = "mph" ∧
    (∀ loc key : String,
      requestParams loc key "metric" = [("q", loc), ("appid", key), ("units", "metric")]) ∧
    (∀ loc key : String,
      requestParams loc key "imperial" = [("q", loc), ("appid", key), ("units", "imperial")]) ∧
    (∀ loc key : String,
      requestParams loc key "kelvin" = [("q", loc), ("appid", key)]) := by
  refine ⟨by decide, by decide, by decide, by decide, by decide, by decide, ?_, ?_, ?_⟩ <;>
    intro loc key <;> simp [requestParams, api_units, pyTruthyOptStr]

/-- C10 counterexample: the empty units string is not equal to "kelvin",
yet the handler does not forward it to the provider (Python truthiness
drops it), contradicting the claim that every non-kelvin units string is
forwarded verbatim. -/
theorem c10_counterexample :
    ("" : String) ≠ "kelvin" ∧
    requestParams "Paris" "KEY" "" = [("q", "Paris"), ("appid", "KEY")] := by
  exact ⟨by decide, by decide⟩

/-- C10 (amended): the handlers never validate `units` against the
declared enum: every units string other than "kelvin" and the empty
string is forwarded verbatim as the provider `units` parameter; any
units other than "metric"/"imperial" renders with unit symbol "K"; and
any units other than "metric"/"kelvin" renders with wind unit "mph"; no
caller error is produced. -/
theorem c10_units_not_validated (u loc key : String)
    (hk : u ≠ "kelvin") (he : u ≠ "") :
    requestParams loc key u = [("q", loc), ("appid", key), ("units", u)] ∧
    (u ≠ "metric" → u ≠ "imperial" → unit_symbol u = "K") ∧
    (u ≠ "metric" → wind_unit u = "mph") := by
  refine ⟨?_, ?_, ?_⟩
  · simp [requestParams, api_units, pyTruthyOptStr, hk, he]
  · intro h1 h2
    simp [unit_symbol, h1, h2]
  · intro h1
    simp [wind_unit, h1, hk]

/-- Witness for C10 (amended) at units "banana". -/
theorem c10_units_not_validated_witness :
    ("banana" : String) ≠ "kelvin" ∧ ("banana" : String) ≠ "" ∧
    (requestParams "Paris" "KEY" "banana" =
        [("q", "Paris"), ("appid", "KEY"), ("units", "banana")] ∧
      (("banana" : String) ≠ "metric" → ("banana" : String) ≠ "imperial" →
        unit_symbol "banana" = "K") ∧
      (("banana" : String) ≠ "metric" → wind_unit "banana" = "mph")) :=
  ⟨by decide, by decide,
    c10_units_not_validated "banana" "Paris" "KEY" (by decide) (by decide)⟩

/-! ## Advice Rule Engine (`llm_weather_client.py`, `_rule_based_analysis`)

Lines 158-257.  The engine re-parses the rendered report text with
Python string operations; absent or unparseable fields leave the
corresponding value `None` (here `none`). -/

/-- Line 160: `lines = weather_data.split('\n')`. -/
def pyLines (wd : String) : List (List Char) := pySplit ['\n'] wd.data

/-- Line 161: `get = lambda key: next((l for l in lines if key in l), "")`:
the first line containing `key`, defaulting to the empty string. -/
def getLine (lines : List (List Char)) (key : List Char) : List Char :=
  (lines.find? (fun l => subB key l)).getD []

/-- Model of ASCII `str.lower`. -/
def pyLower (l : List Char) : List Char := l.map Char.toLower

/-- Model of ASCII `str.capitalize`: first character upper-cased, the
rest lower-cased. -/
def pyCapitalize (l : List Char) : List Char :=
  match l with
  | [] => []
  | c :: r => Char.toUpper c :: r.map Char.toLower

/-- Lines 163-171: extract the temperature.
`tpart = tline.split('Temperature:')[1].split('(')[0].strip()`,
`temp = float(tpart.split('°')[0])`; any failure leaves `None`. -/
def parseTemp (lines : List (List Char)) : Option ℚ :=
  let tline := getLine lines "Temperature:".data
  if tline = [] then none
  else
    (pySplit "Temperature:".data tline)[1]?.bind fun s2 =>
      (pySplit ['('] s2)[0]?.bind fun s3 =>
        (pySplit ['°'] (pyTrim (fun c => c.isWhitespace) s3))[0]?.bind pyFloat

/-- Lines 173-179: extract the feels-like value when the temperature
line has a parenthetical.
`fpart = tline.split('feels like')[-1].rstrip(')').strip()`,
`feels = float(fpart.split('°')[0])`. -/
def parseFeels (lines : List (List Char)) : Option ℚ :=
  let tline := getLine lines "Temperature:".data
  if tline ≠ [] ∧ '(' ∈ tline then
    ((pySplit "feels like".data tline).getLast?).bind fun s =>
      (pySplit ['°']
          (pyTrim (fun c => c.isWhitespace) (pyRtrim (fun c => c == ')') s)))[0]?.bind
        pyFloat
  else none

/-- Line 181: `desc = get('Conditions:').split(':',1)[-1].strip().lower()`. -/
def parseDesc (lines : List (List Char)) : List Char :=
  pyLower (pyTrim (fun c => c.isWhitespace)
    ((pySplitOnce ':' (getLine lines "Conditions:".data)).getLastD []))

/-- Lines 183-188: `hum = int(hline.split(':')[1].strip('% '))`. -/
def parseHum (lines : List (List Char)) : Option ℤ :=
  let hline := getLine lines "Humidity:".data
  if hline = [] then none
  else
    (pySplit [':'] hline)[1]?.bind fun s =>
      pyInt (pyTrim (fun c => c == '%' || c == ' ') s)

/-- Lines 190-196: `wind = float(wline.split(':')[1].split()[0])`. -/
def parseWind (lines : List (List Char)) : Option ℚ :=
  let wline := getLine lines "Wind Speed:".data
  if wline = [] then none
  else
    (pySplit [':'] wline)[1]?.bind fun s =>
      (pyWsTokens s)[0]?.bind pyFloat

/-- Lines 198-204: `vis = int(''.join(ch for ch in vline if
ch.isdigit()))`. -/
def parseVis (lines : List (List Char)) : Option ℤ :=
  let vline := getLine lines "Visibility:".data
  if vline = [] then none
  else pyInt (vline.filter Char.isDigit)

/-- Lines 209-219: clothing tip from the temperature. -/
def clothingTip (t : ℚ) : String :=
  if t ≤ 0 then "🥶 Very cold. Wear a heavy coat, gloves, and a hat."
  else if t ≤ 10 then "🧥 Chilly. A warm jacket and layers are recommended."
  else if t ≥ 30 then "🔥 Hot. Stay hydrated, wear light clothing, and limit midday sun."
  else if t ≥ 22 then "🌞 Warm and comfortable. T‑shirt or light layers are fine."
  else "🌤️ Mild. A light layer should be enough."

/-- Computable rational subtraction; proved equal to `Sub.sub` on ℚ in
`ratSub_eq` below (the standard subtraction is not kernel-reducible). -/
def ratSub (a b : ℚ) : ℚ := mkRat (a.num * b.den - b.num * a.den) (a.den * b.den)

/-- Lines 221-227: feels-like delta tip; requires both values.
`delta = feels - temp`. -/
def feelsTips (t f : ℚ) : List String :=
  if ratSub f t ≤ -3 then
    ["↘️ It feels colder than the actual temperature—add an extra layer."]
  else if ratSub f t ≥ 3 then
    ["↗️ It feels warmer than the actual temperature—dress lightly."]
  else []

/-- `ratSub` computes ordinary rational subtraction. -/
theorem ratSub_eq (a b : ℚ) : ratSub a b = a - b := by
  have ha : ((a.den : ℚ)) ≠ 0 := by
    exact_mod_cast a.den_nz
  have hb : ((b.den : ℚ)) ≠ 0 := by
    exact_mod_cast b.den_nz
  rw [ratSub, Rat.mkRat_eq_div]
  conv_rhs => rw [← Rat.num_div_den a, ← Rat.num_div_den b]
  rw [div_sub_div _ _ ha hb]
  push_cast
  ring_nf

/-- Lines 229-233: precipitation tips from the description. -/
def precipTips (desc : List Char) : List String :=
  if subB "rain".data desc || subB "drizzle".data desc || subB "thunder".data desc ||
      subB "shower".data desc then
    ["☔ Rain expected. Carry an umbrella or waterproof layer."]
  else if subB "snow".data desc then
    ["❄️ Snowy conditions. Wear insulated boots with good traction."]
  else []

/-- Lines 235-240: humidity comfort tips. -/
def humidityTips (h : ℤ) : List String :=
  if h ≥ 80 then ["💧 Very humid—expect it to feel muggy. Stay hydrated."]
  else if h ≤ 30 then ["💨 Dry air—consider moisturizer and stay hydrated."]
  else []

/-- Lines 242-247: wind advisories; both can fire. -/
def windTips (w : ℚ) : List String :=
  (if w ≥ 10 then ["💨 Breezy to windy—secure hats/light items and consider a windbreaker."]
   else []) ++
  (if w ≥ 17 then ["🌬️ Strong winds—extra caution for outdoor activities."] else [])

/-- Lines 249-251: low-visibility tip. -/
def visTips (v : ℤ) : List String :=
  if v < 3000 then ["👁️ Low visibility—take care if driving."] else []

/-- Lines 253-255: condition summary, when a description was parsed. -/
def summaryTips (desc : List Char) : List String :=
  if desc ≠ [] then [String.mk ("ℹ️ Conditions: ".data ++ pyCapitalize desc ++ ['.'])]
  else []

/-- The tip list assembled from the parsed fields by lines 206-255, in
source order; a `none` field contributes nothing. -/
def assembleTips (temp feels : Option ℚ) (desc : List Char) (hum : Option ℤ)
    (wind : Option ℚ) (vis : Option ℤ) : List String :=
  (match temp with
   | some t => [clothingTip t]
   | none => []) ++
  (match temp, feels with
   | some t, some f => feelsTips t f
   | _, _ => []) ++
  precipTips desc ++
  (match hum with
   | some h => humidityTips h
   | none => []) ++
  (match wind with
   | some w => windTips w
   | none => []) ++
  (match vis with
   | some v => visTips v
   | none => []) ++
  summaryTips desc

/-- The tip list produced by lines 160-255. -/
def ruleTips (wd : String) : List String :=
  let lines := pyLines wd
  assembleTips (parseTemp lines) (parseFeels lines) (parseDesc lines)
    (parseHum lines) (parseWind lines) (parseVis lines)

/-- Worker for `pyDedup`; the first list is the set of already-seen
strings. -/
def dedupFirstGo : List String → List String → List String
  | _, [] => []
  | seen, x :: xs =>
    if x ∈ seen then dedupFirstGo seen xs else x :: dedupFirstGo (x :: seen) xs

/-- Line 257: `dict.fromkeys(tips)` — remove exact duplicates keeping
first occurrences. -/
def pyDedup (l : List String) : List String := dedupFirstGo [] l

/-- `_rule_based_analysis` (lines 158-257): parse the report text and
join the deduplicated tips with newlines.  The `user_query` parameter is
accepted, as in the source, but never read. -/
def rule_based_analysis (weather_data : String) (_user_query : String) : String :=
  String.mk (joinSep ['\n'] ((pyDedup (ruleTips weather_data)).map String.data))

/-! ## Analysis Cascade (`llm_weather_client.py`, lines 129-156) -/

/-- The environment variables read by the cascade (lines 132, 140,
148); `none` models an unset variable.  The model-name variables
(`OPENAI_MODEL`, `HF_MODEL`, `OLLAMA_MODEL`) only parameterize the
remote calls and are absorbed into the provider oracles. -/
structure CascadeEnv where
  openai_api_key : Option String
  hf_api_token : Option String
  ollama_host : Option String

/-- The three remote analysis attempts (`_analyze_with_openai`,
`_analyze_with_hf`, `_analyze_with_ollama`): network calls to services
outside this repository (§6), taken as oracles returning an optional
analysis string. -/
structure CascadeProviders where
  openai : String → String → Option String
  hf : String → String → Option String
  ollama : String → String → Option String

/-- `os.getenv(var, default)`. -/
def pyGetenv (v : Option String) (dflt : String) : String := v.getD dflt

/-- `str.strip()` on a `String`. -/
def pyStripStr (s : String) : String :=
  String.mk (pyTrim (fun c => c.isWhitespace) s.data)

/-- `str.rstrip("/")` on a `String`. -/
def pyRstripSlashStr (s : String) : String :=
  String.mk (pyRtrim (fun c => c == '/') s.data)

/-- One tier of the cascade: when the gate is truthy, the provider is
tried and its result returned if it is a truthy (non-empty) string;
otherwise control falls through to the next tier (lines 134-137,
142-145, 150-153). -/
def cascadeStep (gate : Bool) (res : Option String) (next : String) : String :=
  if gate then
    match res with
    | some a => if a = "" then next else a
    | none => next
  else next

/-- `analyze_weather_with_llm_async` (lines 129-156): try OpenAI, then
Hugging Face, then Ollama, each only when its credential/host is
configured non-empty, and fall back to the rule-based analysis. -/
def analyze_weather_with_llm_async (env : CascadeEnv) (p : CascadeProviders)
    (weather_data user_query : String) : String :=
  let openai_key := pyStripStr (pyGetenv env.openai_api_key "")
  let hf_token := pyStripStr (pyGetenv env.hf_api_token "")
  let ollama_host := pyRstripSlashStr (pyGetenv env.ollama_host "http://localhost:11434")
  cascadeStep (openai_key != "") (p.openai weather_data user_query)
    (cascadeStep (hf_token != "") (p.hf weather_data user_query)
      (cascadeStep (ollama_host != "") (p.ollama weather_data user_query)
        (rule_based_analysis weather_data user_query)))

/-- C2: when no remote analysis provider is configured (OpenAI key
empty, Hugging Face token empty, Ollama host configured empty), the
cascade returns exactly the Rule Engine's output on the same inputs,
whatever the remote oracles would have answered. -/
theorem c2_cascade_fallback (p : CascadeProviders) (wd uq : String) :
    analyze_weather_with_llm_async ⟨some "", some "", some ""⟩ p wd uq =
      rule_based_analysis wd uq := rfl

/-- C9: the Rule Engine's output depends only on the report text — the
user-query argument is never read, so any two queries give identical
output on the same report. -/
theorem c9_query_independence (wd q1 q2 : String) :
    rule_based_analysis wd q1 = rule_based_analysis wd q2 := rfl

/-! ## Tool Service (`weather_mcp_server.py`, `handle_call_tool`) -/

/-- A text content block (`mcp.types.TextContent`). -/
structure TextContent where
  type : String
  text : String

/-- Arguments of a tool call. -/
def ToolArgs := List (String × String)

/-- `handle_call_tool` (lines 129-137): dispatch on the tool name; an
unknown name raises `ValueError(f"Unknown tool: {name}")`.  The two
weather handlers end in upstream network calls (§6), so they are taken
as oracle parameters. -/
def handle_call_tool (getWeather getForecast : ToolArgs → List TextContent)
    (name : String) (args : ToolArgs) : Except String (List TextContent) :=
  if name = "get_weather" then Except.ok (getWeather args)
  else if name = "get_forecast" then Except.ok (getForecast args)
  else Except.error ("Unknown tool: " ++ name)

/-- The result of a call-tool invocation as seen across the protocol
boundary: either an in-band result (content plus error flag) or a
transport-level fault. -/
inductive ToolCallOutcome
  | inband (content : List TextContent) (isError : Bool)
  | transportFault (message : String)

/-- Modelled from the spec: the protocol layer wrapping registered tool
handlers (the `call_tool` decorator of the MCP framework, outside this
repository) converts handler exceptions into in-band error content —
"unknown tool name is a caller error (`UnknownTool`); all upstream
failures are caught and converted into a text content block describing
the error rather than propagated as protocol faults" (spec §4.5, §7). -/
def callToolOutcome (getWeather getForecast : ToolArgs → List TextContent)
    (name : String) (args : ToolArgs) : ToolCallOutcome :=
  match handle_call_tool getWeather getForecast name args with
  | Except.ok content => ToolCallOutcome.inband content false
  | Except.error msg => ToolCallOutcome.inband [⟨"text", msg⟩] true

/-- C5: a call-tool invocation with a name that is neither `get_weather`
nor `get_forecast` yields an in-band error result carrying the
UnknownTool message, and is never a transport-level fault. -/
theorem c5_unknown_tool_inband (gW gF : ToolArgs → List TextContent)
    (name : String) (args : ToolArgs)
    (h1 : name ≠ "get_weather") (h2 : name ≠ "get_forecast") :
    callToolOutcome gW gF name args =
      ToolCallOutcome.inband [⟨"text", "Unknown tool: " ++ name⟩] true ∧
    ∀ m, callToolOutcome gW gF name args ≠ ToolCallOutcome.transportFault m := by
  have h : callToolOutcome gW gF name args =
      ToolCallOutcome.inband [⟨"text", "Unknown tool: " ++ name⟩] true := by
    simp [callToolOutcome, handle_call_tool, h1, h2]
  exact ⟨h, fun m hm => by rw [h] at hm; cases hm⟩

/-- Witness for C5 at the spec's example tool name `get_humidity`. -/
theorem c5_unknown_tool_inband_witness :
    ("get_humidity" : String) ≠ "get_weather" ∧
    ("get_humidity" : String) ≠ "get_forecast" ∧
    (callToolOutcome (fun _ => []) (fun _ => []) "get_humidity" [] =
        ToolCallOutcome.inband [⟨"text", "Unknown tool: get_humidity"⟩] true ∧
      ∀ m, callToolOutcome (fun _ => []) (fun _ => []) "get_humidity" [] ≠
        ToolCallOutcome.transportFault m) :=
  ⟨by decide, by decide,
    c5_unknown_tool_inband (fun _ => []) (fun _ => []) "get_humidity" []
      (by decide) (by decide)⟩

/-! ## The canonical example report (spec §8) -/

/-- The canonical example report of spec §8: temperature 5, feels-like
2, conditions "light rain" (title-cased by the fetcher), humidity 85%,
wind 12 m/s, visibility 2500 m, metric units. -/
def exampleReport : WeatherReport :=
  { location := "London, GB"
    temperature := ⟨false, [5], [0]⟩
    feels_like := ⟨false, [2], [0]⟩
    description := "Light Rain"
    humidity := [8, 5]
    wind_speed := ⟨false, [1, 2], [0]⟩
    pressure := [1, 0, 1, 2]
    visibility := some [2, 5, 0, 0]
    units := "metric" }

/-- C7: on the canonical example report the Rule Engine emits, in this
order: the chilly-jacket tip, the feels-colder-add-layer tip (the delta
of exactly -3 fires), the rain-umbrella tip, the muggy-hydrate tip, the
breezy-secure-items tip, the low-visibility-caution tip, and the
summary "Light rain.". -/
theorem c7_canonical_example (q : String) :
    rule_based_analysis (formatted_response exampleReport) q =
      "🧥 Chilly. A warm jacket and layers are recommended.\n↘️ It feels colder than the actual temperature—add an extra layer.\n☔ Rain expected. Carry an umbrella or waterproof layer.\n💧 Very humid—expect it to feel muggy. Stay hydrated.\n💨 Breezy to windy—secure hats/light items and consider a windbreaker.\n👁️ Low visibility—take care if driving.\nℹ️ Conditions: Light rain." := by
  have h : rule_based_analysis (formatted_response exampleReport) "" =
      "🧥 Chilly. A warm jacket and layers are recommended.\n↘️ It feels colder than the actual temperature—add an extra layer.\n☔ Rain expected. Carry an umbrella or waterproof layer.\n💧 Very humid—expect it to feel muggy. Stay hydrated.\n💨 Breezy to windy—secure hats/light items and consider a windbreaker.\n👁️ Low visibility—take care if driving.\nℹ️ Conditions: Light rain." := by
    decide
  exact h

/-! ## Forecast Reducer (`weather_mcp_server.py`, lines 244-267) -/

/-- Model of Python `str.endswith`. -/
def suffB (p l : List Char) : Bool := prefB p.reverse l.reverse

/-- A raw 3-hour forecast entry as read from the provider payload:
timestamp text plus the fields the forecast line renders. -/
structure FEntry where
  dt_txt : String
  temp : Dec
  description : String
  humidity : List (Fin 10)

/-- Line 248: the date component of `dt_txt` — the prefix before the
space when one is present, else the whole string. -/
def dateOf (e : FEntry) : String :=
  if ' ' ∈ e.dt_txt.data then String.mk ((pySplit [' '] e.dt_txt.data).headD [])
  else e.dt_txt

/-- Lines 245-249: group entries by date.  Python's `dict` keeps keys in
first-occurrence order and `setdefault(date, []).append(item)` keeps
entries in traversal order; this recursion produces the same
association list. -/
def groupByDate : List FEntry → List (String × List FEntry)
  | [] => []
  | e :: es =>
    let g := groupByDate es
    (dateOf e, e :: ((g.lookup (dateOf e)).getD [])) ::
      g.filter (fun p => p.1 != dateOf e)

/-- Line 256: the noon test `e.get('dt_txt','').endswith('12:00:00')`. -/
def isNoonB (e : FEntry) : Bool := suffB "12:00:00".data e.dt_txt.data

/-- `pick_representative` (lines 254-259): the first noon entry when one
exists, else the entry at the floor-middle index.  (Python indexes a
non-empty list directly; the `none` case is unreachable there.) -/
def pick_representative (entries : List FEntry) : Option FEntry :=
  match entries.filter isNoonB with
  | f :: _ => some f
  | [] => entries.get? (entries.length / 2)

/-- Lines 251-252 and 261-267: sort the distinct dates, keep the first
five, and pair each with its representative entry (from which the
forecast line's temperature, description and humidity are rendered). -/
def reduceForecast (items : List FEntry) : List (String × FEntry) :=
  ((List.insertionSort (fun a b : String => a ≤ b)
      ((groupByDate items).map Prod.fst)).take 5).filterMap
    fun d =>
      (pick_representative (((groupByDate items).lookup d).getD [])).map
        fun f => (d, f)

/-- C3: on a non-empty single-date entry list, the representative is a
noon entry whenever one exists, and otherwise the entry at the
floor-middle index; in particular a 3-entry list with no noon entry
yields the entry at 0-based index 1. -/
theorem c3_pick_representative (entries : List FEntry) (h : entries ≠ []) :
    ((∃ e ∈ entries, isNoonB e = true) →
      ∃ f, pick_representative entries = some f ∧ isNoonB f = true) ∧
    ((∀ e ∈ entries, isNoonB e = false) →
      pick_representative entries = entries.get? (entries.length / 2) ∧
        pick_representative entries ≠ none) ∧
    (∀ a b c : FEntry, entries = [a, b, c] → (∀ e ∈ entries, isNoonB e = false) →
      pick_representative entries = some b) := by
  refine ⟨?_, ?_, ?_⟩
  · intro hex
    rcases hf : entries.filter isNoonB with _ | ⟨f, t⟩
    · rcases hex with ⟨e, he, hn⟩
      have : e ∈ entries.filter isNoonB := List.mem_filter.mpr ⟨he, hn⟩
      rw [hf] at this
      cases this
    · refine ⟨f, ?_, ?_⟩
      · simp [pick_representative, hf]
      · have : f ∈ entries.filter isNoonB := by rw [hf]; exact List.mem_cons_self _ _
        exact (List.mem_filter.mp this).2
  · intro hno
    have hf : entries.filter isNoonB = [] := by
      rw [List.filter_eq_nil_iff]
      intro e he
      simp [hno e he]
    constructor
    · simp [pick_representative, hf]
    · simp only [pick_representative, hf]
      have hlt : entries.length / 2 < entries.length :=
        Nat.div_lt_self (List.length_pos.mpr h) (by norm_num)
      rw [List.get?_eq_get hlt]
      simp
  · intro a b c habc hno
    subst habc
    have hf : List.filter isNoonB [a, b, c] = [] := by
      rw [List.filter_eq_nil_iff]
      intro e he
      simp [hno e he]
    simp [pick_representative, hf]

/-- Witness for C3 on a concrete 3-entry, no-noon date group. -/
theorem c3_pick_representative_witness :
    ([⟨"2024-05-01 00:00:00", ⟨false, [1], [0]⟩, "a", [1]⟩,
      ⟨"2024-05-01 03:00:00", ⟨false, [2], [0]⟩, "b", [2]⟩,
      ⟨"2024-05-01 06:00:00", ⟨false, [3], [0]⟩, "c", [3]⟩] : List FEntry) ≠ ([] : List FEntry) ∧
    pick_representative
        [⟨"2024-05-01 00:00:00", ⟨false, [1], [0]⟩, "a", [1]⟩,
         ⟨"2024-05-01 03:00:00", ⟨false, [2], [0]⟩, "b", [2]⟩,
         ⟨"2024-05-01 06:00:00", ⟨false, [3], [0]⟩, "c", [3]⟩] =
      some ⟨"2024-05-01 03:00:00", ⟨false, [2], [0]⟩, "b", [2]⟩ := by
  constructor
  · exact List.cons_ne_nil _ _
  · exact
      (c3_pick_representative _ (List.cons_ne_nil _ _)).2.2
        ⟨"2024-05-01 00:00:00", ⟨false, [1], [0]⟩, "a", [1]⟩
        ⟨"2024-05-01 03:00:00", ⟨false, [2], [0]⟩, "b", [2]⟩
        ⟨"2024-05-01 06:00:00", ⟨false, [3], [0]⟩, "c", [3]⟩
        rfl (by decide)

theorem lookup_filter_ne (g : List (String × List FEntry)) (k d : String)
    (hne : d ≠ k) :
    (g.filter (fun p => p.1 != k)).lookup d = g.lookup d := by
  induction g with
  | nil => rfl
  | cons p t ih =>
    obtain ⟨a, b⟩ := p
    by_cases hpk : a = k
    · have h1 : ((a, b).1 != k) = false := by simp [hpk]
      have h2 : (d == a) = false := by
        subst hpk
        simp [hne]
      simp [List.filter_cons, h1, List.lookup, h2, ih]
    · have h1 : ((a, b).1 != k) = true := by simp [hpk]
      by_cases had : d = a
      · subst had
        simp [List.filter_cons, h1, List.lookup]
      · have h2 : (d == a) = false := by simp [had]
        simp [List.filter_cons, h1, List.lookup, h2, ih]

theorem groupByDate_lookup (items : List FEntry) (d : String) :
    ((groupByDate items).lookup d).getD [] =
      items.filter (fun e => dateOf e == d) := by
  induction items with
  | nil => rfl
  | cons e es ih =>
    by_cases hd : dateOf e = d
    · subst hd
      simp [groupByDate, List.lookup, List.filter_cons, ih]
    · have h2 : (dateOf e == d) = false := by simp [hd]
      have h3 : (d == dateOf e) = false := by
        simp [Ne.symm hd]
      simp only [groupByDate, List.lookup, h3, List.filter_cons, h2]
      rw [lookup_filter_ne _ _ _ (Ne.symm hd)]
      simp [ih]

theorem groupByDate_keys_nodup (items : List FEntry) :
    ((groupByDate items).map Prod.fst).Nodup := by
  induction items with
  | nil => exact List.nodup_nil
  | cons e es ih =>
    simp only [groupByDate, List.map_cons, List.nodup_cons]
    constructor
    · intro hmem
      rcases List.mem_map.mp hmem with ⟨p, hp, hfst⟩
      have := (List.mem_filter.mp hp).2
      rw [hfst] at this
      simp at this
    · exact ih.sublist (List.Sublist.map _ (List.filter_sublist _))

theorem groupByDate_keys_mem (items : List FEntry) (d : String) :
    d ∈ (groupByDate items).map Prod.fst ↔ d ∈ items.map dateOf := by
  induction items with
  | nil => simp [groupByDate]
  | cons e es ih =>
    simp only [groupByDate, List.map_cons, List.mem_cons]
    constructor
    · rintro (rfl | hmem)
      · exact Or.inl rfl
      · rcases List.mem_map.mp hmem with ⟨p, hp, hfst⟩
        have hpm : p ∈ groupByDate es := (List.mem_filter.mp hp).1
        right
        rw [← ih]
        exact hfst ▸ List.mem_map_of_mem Prod.fst hpm
    · rintro (rfl | hmem)
      · exact Or.inl rfl
      · by_cases hd : d = dateOf e
        · exact Or.inl hd
        · right
          rcases List.mem_map.mp (ih.mpr hmem) with ⟨p, hp, hfst⟩
          refine List.mem_map.mpr ⟨p, List.mem_filter.mpr ⟨hp, ?_⟩, hfst⟩
          rw [hfst]
          simp only [bne_iff_ne, ne_eq]
          exact hd

theorem filterMap_pick (dates : List String) (F : String → Option FEntry)
    (h : ∀ d ∈ dates, F d ≠ none) :
    ((dates.filterMap fun d => (F d).map fun f => (d, f)).map Prod.fst = dates) ∧
      (dates.filterMap fun d => (F d).map fun f => (d, f)).length = dates.length := by
  induction dates with
  | nil => exact ⟨rfl, rfl⟩
  | cons d t ih =>
    rcases hF : F d with _ | f
    · exact absurd hF (h d (List.mem_cons_self _ _))
    · have iht := ih fun x hx => h x (List.mem_cons_of_mem _ hx)
      constructor
      · simp [List.filterMap_cons, hF, iht.1]
      · simp [List.filterMap_cons, hF, iht.2]

theorem pick_representative_ne_none (entries : List FEntry) (h : entries ≠ []) :
    pick_representative entries ≠ none := by
  rcases hf : entries.filter isNoonB with _ | ⟨f, t⟩
  · simp only [pick_representative, hf]
    have hlt : entries.length / 2 < entries.length :=
      Nat.div_lt_self (List.length_pos.mpr h) (by norm_num)
    rw [List.get?_eq_get hlt]
    simp
  · simp [pick_representative, hf]

theorem pick_representative_noon (entries : List FEntry) (f : FEntry)
    (hex : ∃ e ∈ entries, isNoonB e = true)
    (hp : pick_representative entries = some f) : isNoonB f = true := by
  rcases hf : entries.filter isNoonB with _ | ⟨g, t⟩
  · exfalso
    rcases hex with ⟨e, he, hn⟩
    have : e ∈ entries.filter isNoonB := List.mem_filter.mpr ⟨he, hn⟩
    rw [hf] at this
    cases this
  · rw [pick_representative, hf] at hp
    have hgf : g = f := by injection hp
    have : g ∈ entries.filter isNoonB := by
      rw [hf]
      exact List.mem_cons_self _ _
    exact hgf ▸ (List.mem_filter.mp this).2

/-- C4: when the forecast entries span 7 distinct dates, the reduced
forecast has exactly 5 lines, their dates strictly ascending, and each
line's representative is a noon entry whenever its date has one. -/
theorem c4_forecast_reduction (items : List FEntry)
    (h7 : ((items.map dateOf).dedup).length = 7) :
    (reduceForecast items).length = 5 ∧
    List.Chain' (fun a b : String => a < b) ((reduceForecast items).map Prod.fst) ∧
    (∀ p ∈ reduceForecast items,
      (∃ e ∈ items.filter (fun x => dateOf x == p.1), isNoonB e = true) →
      isNoonB p.2 = true) := by
  classical
  have knd : ((groupByDate items).map Prod.fst).Nodup := groupByDate_keys_nodup items
  have kperm : List.Perm ((groupByDate items).map Prod.fst) ((items.map dateOf).dedup) :=
    (List.perm_ext_iff_of_nodup knd (List.nodup_dedup _)).mpr
      (fun a => (groupByDate_keys_mem items a).trans List.mem_dedup.symm)
  have klen : ((groupByDate items).map Prod.fst).length = 7 := by
    rw [kperm.length_eq, h7]
  have ssorted :
      (List.insertionSort (fun a b : String => a ≤ b)
        ((groupByDate items).map Prod.fst)).Sorted (· ≤ ·) :=
    List.sorted_insertionSort _ _
  have sperm :
      List.Perm (List.insertionSort (fun a b : String => a ≤ b)
        ((groupByDate items).map Prod.fst)) ((groupByDate items).map Prod.fst) :=
    List.perm_insertionSort _ _
  have snd :
      (List.insertionSort (fun a b : String => a ≤ b)
        ((groupByDate items).map Prod.fst)).Nodup := sperm.nodup_iff.mpr knd
  have slen :
      (List.insertionSort (fun a b : String => a ≤ b)
        ((groupByDate items).map Prod.fst)).length = 7 := sperm.length_eq.trans klen
  have spw :
      (List.insertionSort (fun a b : String => a ≤ b)
        ((groupByDate items).map Prod.fst)).Pairwise (fun a b : String => a < b) :=
    (ssorted.and snd).imp fun h => lt_of_le_of_ne h.1 h.2
  have dpw :
      ((List.insertionSort (fun a b : String => a ≤ b)
        ((groupByDate items).map Prod.fst)).take 5).Pairwise
        (fun a b : String => a < b) :=
    spw.sublist (List.take_sublist 5 _)
  have dlen :
      ((List.insertionSort (fun a b : String => a ≤ b)
        ((groupByDate items).map Prod.fst)).take 5).length = 5 := by
    rw [List.length_take, slen]
    omega
  have hne : ∀ d ∈ (List.insertionSort (fun a b : String => a ≤ b)
      ((groupByDate items).map Prod.fst)).take 5,
      ((groupByDate items).lookup d).getD [] ≠ [] := by
    intro d hd
    have hdk : d ∈ (groupByDate items).map Prod.fst :=
      sperm.mem_iff.mp (List.take_subset 5 _ hd)
    have hdm : d ∈ items.map dateOf := (groupByDate_keys_mem items d).mp hdk
    rcases List.mem_map.mp hdm with ⟨e, he, hde⟩
    rw [groupByDate_lookup]
    intro hnil
    have : e ∈ items.filter (fun x => dateOf x == d) :=
      List.mem_filter.mpr ⟨he, by simp [hde]⟩
    rw [hnil] at this
    cases this
  have hF : ∀ d ∈ (List.insertionSort (fun a b : String => a ≤ b)
      ((groupByDate items).map Prod.fst)).take 5,
      pick_representative (((groupByDate items).lookup d).getD []) ≠ none :=
    fun d hd => pick_representative_ne_none _ (hne d hd)
  have fm := filterMap_pick _ _ hF
  refine ⟨?_, ?_, ?_⟩
  · rw [reduceForecast, fm.2, dlen]
  · rw [reduceForecast, fm.1]
    exact dpw.chain'
  · intro p hp hex
    rcases List.mem_filterMap.mp hp with ⟨d, _, hmap⟩
    rcases hFd : pick_representative (((groupByDate items).lookup d).getD [])
      with _ | f
    · rw [hFd] at hmap
      cases hmap
    · rw [hFd] at hmap
      have hmap2 : (d, f) = p := by simpa using hmap
      have hp1 : p.1 = d := by rw [← hmap2]
      have hp2 : p.2 = f := by rw [← hmap2]
      rw [hp2]
      refine pick_representative_noon _ f ?_ hFd
      rw [groupByDate_lookup]
      rw [hp1] at hex
      exact hex

/-- The witness payload for C4: eight entries spanning seven distinct
dates, with a noon entry on 2024-05-01. -/
def witnessItems : List FEntry :=
  [⟨"2024-05-03 09:00:00", ⟨false, [1], [0]⟩, "a", [1]⟩,
   ⟨"2024-05-01 09:00:00", ⟨false, [1], [0]⟩, "a", [1]⟩,
   ⟨"2024-05-01 12:00:00", ⟨false, [1], [0]⟩, "a", [1]⟩,
   ⟨"2024-05-02 09:00:00", ⟨false, [1], [0]⟩, "a", [1]⟩,
   ⟨"2024-05-04 09:00:00", ⟨false, [1], [0]⟩, "a", [1]⟩,
   ⟨"2024-05-05 09:00:00", ⟨false, [1], [0]⟩, "a", [1]⟩,
   ⟨"2024-05-06 09:00:00", ⟨false, [1], [0]⟩, "a", [1]⟩,
   ⟨"2024-05-07 09:00:00", ⟨false, [1], [0]⟩, "a", [1]⟩]

/-- Witness for C4 on a concrete payload spanning 7 distinct dates. -/
theorem c4_forecast_reduction_witness :
    ((witnessItems.map dateOf).dedup).length = 7 ∧
    (reduceForecast witnessItems).length = 5 :=
  ⟨by decide, (c4_forecast_reduction witnessItems (by decide)).1⟩

/-! ## Totality of the Rule Engine (C6)

A second reading of `_rule_based_analysis` in which every Python
operation that can raise — indexing, `float()`, `int()` — is explicit in
an error monad, and each `try ... except Exception: pass` block is a
catch.  The only fallible operation outside a `try` block is the `[-1]`
indexing on line 181. -/

/-- Python list indexing `l[i]`, raising `IndexError` out of range. -/
def pyIdxE (l : List (List Char)) (i : ℕ) : Except String (List Char) :=
  match l[i]? with
  | some x => Except.ok x
  | none => Except.error "IndexError"

/-- Python `l[-1]`, raising `IndexError` on the empty list. -/
def pyLastE (l : List (List Char)) : Except String (List Char) :=
  match l.getLast? with
  | some x => Except.ok x
  | none => Except.error "IndexError"

/-- Python `float(s)`, raising `ValueError` on failure. -/
def pyFloatE (l : List Char) : Except String ℚ :=
  match pyFloat l with
  | some q => Except.ok q
  | none => Except.error "ValueError"

/-- Python `int(s)`, raising `ValueError` on failure. -/
def pyIntE (l : List Char) : Except String ℤ :=
  match pyInt l with
  | some z => Except.ok z
  | none => Except.error "ValueError"

/-- A `try: ... except Exception: pass` block around statements that may
set an optional value: an exception leaves the value `None`. -/
def pyTry {α : Type} (x : Except String (Option α)) : Option α :=
  match x with
  | Except.ok v => v
  | Except.error _ => none

/-- Lines 163-171 with the fallible operations explicit. -/
def parseTempE (lines : List (List Char)) : Option ℚ :=
  pyTry
    (if getLine lines "Temperature:".data = [] then pure none
     else do
      let s2 ← pyIdxE (pySplit "Temperature:".data (getLine lines "Temperature:".data)) 1
      let s3 ← pyIdxE (pySplit ['('] s2) 0
      let s4 ← pyIdxE (pySplit ['°'] (pyTrim (fun c => c.isWhitespace) s3)) 0
      let t ← pyFloatE s4
      pure (some t))

/-- Lines 173-179 with the fallible operations explicit. -/
def parseFeelsE (lines : List (List Char)) : Option ℚ :=
  pyTry
    (if getLine lines "Temperature:".data ≠ [] ∧
        '(' ∈ getLine lines "Temperature:".data then do
      let s ← pyLastE (pySplit "feels like".data (getLine lines "Temperature:".data))
      let s2 ← pyIdxE (pySplit ['°']
        (pyTrim (fun c => c.isWhitespace) (pyRtrim (fun c => c == ')') s))) 0
      let f ← pyFloatE s2
      pure (some f)
     else pure none)

/-- Line 181 with the fallible `[-1]` explicit; this indexing is outside
every `try` block in the source. -/
def parseDescE (lines : List (List Char)) : Except String (List Char) :=
  (pyLastE (pySplitOnce ':' (getLine lines "Conditions:".data))).map
    fun s => pyLower (pyTrim (fun c => c.isWhitespace) s)

/-- Lines 183-188 with the fallible operations explicit. -/
def parseHumE (lines : List (List Char)) : Option ℤ :=
  pyTry
    (if getLine lines "Humidity:".data = [] then pure none
     else do
      let s ← pyIdxE (pySplit [':'] (getLine lines "Humidity:".data)) 1
      let h ← pyIntE (pyTrim (fun c => c == '%' || c == ' ') s)
      pure (some h))

/-- Lines 190-196 with the fallible operations explicit. -/
def parseWindE (lines : List (List Char)) : Option ℚ :=
  pyTry
    (if getLine lines "Wind Speed:".data = [] then pure none
     else do
      let s ← pyIdxE (pySplit [':'] (getLine lines "Wind Speed:".data)) 1
      let s2 ← pyIdxE (pyWsTokens s) 0
      let w ← pyFloatE s2
      pure (some w))

/-- Lines 198-204 with the fallible operations explicit. -/
def parseVisE (lines : List (List Char)) : Option ℤ :=
  pyTry
    (if getLine lines "Visibility:".data = [] then pure none
     else do
      let v ← pyIntE ((getLine lines "Visibility:".data).filter Char.isDigit)
      pure (some v))

/-- `_rule_based_analysis` with every possible Python exception explicit
in the `Except` monad: an uncaught exception would surface as
`Except.error`. -/
def rule_based_analysisE (weather_data : String) (_user_query : String) :
    Except String String := do
  let lines := pyLines weather_data
  let desc ← parseDescE lines
  pure (String.mk (joinSep ['\n']
    ((pyDedup (assembleTips (parseTempE lines) (parseFeelsE lines) desc
      (parseHumE lines) (parseWindE lines) (parseVisE lines))).map String.data)))

theorem pyTry_bind {α β : Type} (x : Except String α)
    (k : α → Except String (Option β)) :
    pyTry (x >>= k) =
      match x with
      | Except.ok v => pyTry (k v)
      | Except.error _ => none := by
  cases x <;> rfl

theorem pyTry_pure {α : Type} (v : Option α) : pyTry (pure v) = v := rfl

theorem parseTempE_eq (lines : List (List Char)) :
    parseTempE lines = parseTemp lines := by
  rw [parseTempE, parseTemp]
  by_cases h : getLine lines "Temperature:".data = []
  · simp [h, pyTry_pure]
  · simp only [if_neg h]
    rw [pyTry_bind]
    cases h2 : (pySplit "Temperature:".data (getLine lines "Temperature:".data))[1]? with
    | none => simp [pyIdxE, h2]
    | some s2 =>
      simp only [pyIdxE, h2, Option.some_bind]
      rw [pyTry_bind]
      cases h3 : (pySplit ['('] s2)[0]? with
      | none => simp [pyIdxE, h3]
      | some s3 =>
        simp only [pyIdxE, h3, Option.some_bind]
        rw [pyTry_bind]
        cases h4 : (pySplit ['°'] (pyTrim (fun c => c.isWhitespace) s3))[0]? with
        | none => simp [pyIdxE, h4]
        | some s4 =>
          simp only [pyIdxE, h4, Option.some_bind]
          rw [pyTry_bind]
          cases h5 : pyFloat s4 with
          | none => simp [pyFloatE, h5]
          | some t => simp [pyFloatE, h5, pyTry_pure]

theorem parseFeelsE_eq (lines : List (List Char)) :
    parseFeelsE lines = parseFeels lines := by
  rw [parseFeelsE, parseFeels]
  by_cases h : getLine lines "Temperature:".data ≠ [] ∧
      '(' ∈ getLine lines "Temperature:".data
  · simp only [if_pos h]
    rw [pyTry_bind]
    cases h2 : (pySplit "feels like".data (getLine lines "Temperature:".data)).getLast? with
    | none => simp [pyLastE, h2]
    | some s =>
      simp only [pyLastE, h2, Option.some_bind]
      rw [pyTry_bind]
      cases h3 : (pySplit ['°']
          (pyTrim (fun c => c.isWhitespace) (pyRtrim (fun c => c == ')') s)))[0]? with
      | none => simp [pyIdxE, h3]
      | some s2 =>
        simp only [pyIdxE, h3, Option.some_bind]
        rw [pyTry_bind]
        cases h4 : pyFloat s2 with
        | none => simp [pyFloatE, h4]
        | some f => simp [pyFloatE, h4, pyTry_pure]
  · simp [if_neg h, pyTry_pure]

theorem pySplitOnce_ne_nil (c : Char) (l : List Char) : pySplitOnce c l ≠ [] := by
  rw [pySplitOnce]
  cases l.dropWhile (fun x => !(x == c)) <;> simp

theorem parseDescE_ok (lines : List (List Char)) :
    parseDescE lines = Except.ok (parseDesc lines) := by
  rw [parseDescE, parseDesc]
  rcases hs : pySplitOnce ':' (getLine lines "Conditions:".data) with _ | ⟨x, t⟩
  · exact absurd hs (pySplitOnce_ne_nil _ _)
  · have hsome : (x :: t).getLast?.isSome := by simp
    obtain ⟨y, hy⟩ := Option.isSome_iff_exists.mp hsome
    rw [pyLastE, hy, List.getLastD_eq_getLast?, hy]
    rfl

theorem parseHumE_eq (lines : List (List Char)) :
    parseHumE lines = parseHum lines := by
  rw [parseHumE, parseHum]
  by_cases h : getLine lines "Humidity:".data = []
  · simp [h, pyTry_pure]
  · simp only [if_neg h]
    rw [pyTry_bind]
    cases h2 : (pySplit [':'] (getLine lines "Humidity:".data))[1]? with
    | none => simp [pyIdxE, h2]
    | some s =>
      simp only [pyIdxE, h2, Option.some_bind]
      rw [pyTry_bind]
      cases h3 : pyInt (pyTrim (fun c => c == '%' || c == ' ') s) with
      | none => simp [pyIntE, h3]
      | some z => simp [pyIntE, h3, pyTry_pure]

theorem parseWindE_eq (lines : List (List Char)) :
    parseWindE lines = parseWind lines := by
  rw [parseWindE, parseWind]
  by_cases h : getLine lines "Wind Speed:".data = []
  · simp [h, pyTry_pure]
  · simp only [if_neg h]
    rw [pyTry_bind]
    cases h2 : (pySplit [':'] (getLine lines "Wind Speed:".data))[1]? with
    | none => simp [pyIdxE, h2]
    | some s =>
      simp only [pyIdxE, h2, Option.some_bind]
      rw [pyTry_bind]
      cases h3 : (pyWsTokens s)[0]? with
      | none => simp [pyIdxE, h3]
      | some s2 =>
        simp only [pyIdxE, h3, Option.some_bind]
        rw [pyTry_bind]
        cases h4 : pyFloat s2 with
        | none => simp [pyFloatE, h4]
        | some w => simp [pyFloatE, h4, pyTry_pure]

theorem parseVisE_eq (lines : List (List Char)) :
    parseVisE lines = parseVis lines := by
  rw [parseVisE, parseVis]
  by_cases h : getLine lines "Visibility:".data = []
  · simp [h, pyTry_pure]
  · simp only [if_neg h]
    rw [pyTry_bind]
    cases h2 : pyInt ((getLine lines "Visibility:".data).filter Char.isDigit) with
    | none => simp [pyIntE, h2]
    | some z => simp [pyIntE, h2, pyTry_pure]

/-- C6: the Rule Engine is total.  With every Python exception explicit,
`_rule_based_analysis` returns `ok` — never an error — on every pair of
input strings, producing exactly the pure analysis; on the empty report
the tip sequence is empty. -/
theorem c6_rule_engine_total (wd uq : String) :
    rule_based_analysisE wd uq = Except.ok (rule_based_analysis wd uq) ∧
    rule_based_analysis "" uq = "" := by
  constructor
  · rw [rule_based_analysisE, rule_based_analysis, ruleTips, parseDescE_ok]
    simp only [parseTempE_eq, parseFeelsE_eq, parseHumE_eq, parseWindE_eq,
      parseVisE_eq]
    rfl
  · have h : rule_based_analysis "" "" = "" := by decide
    exact h

/-! ## Round-trip of the canonical report through the Rule Engine (C1)

Helper lemmas about the characters of rendered fields, line selection by
`getLine`, and the split/strip computations of each field parser. -/

theorem dec_chars_class (d : Dec) :
    ∀ c ∈ d.chars, c = '-' ∨ c.isDigit = true ∨ c = '.' := by
  intro c hc
  simp only [Dec.chars] at hc
  rcases List.mem_append.mp hc with hc | hc
  · rcases List.mem_append.mp hc with hc | hc
    · rcases hneg : d.neg with _ | _ <;> rw [hneg] at hc <;> simp_all
    · rcases mem_digitsChars _ _ hc with ⟨dd, rfl⟩
      exact Or.inr (Or.inl (finDigitChar_isDigit dd))
  · rcases hc with _ | ⟨_, hc⟩
    · exact Or.inr (Or.inr rfl)
    · rcases mem_digitsChars _ _ hc with ⟨dd, rfl⟩
      exact Or.inr (Or.inl (finDigitChar_isDigit dd))

theorem not_mem_dec_chars (d : Dec) (c : Char) (h1 : c ≠ '-')
    (h2 : c.isDigit = false) (h3 : c ≠ '.') : c ∉ d.chars := by
  intro hc
  rcases dec_chars_class d c hc with h | h | h
  · exact h1 h
  · rw [h] at h2; cases h2
  · exact h3 h

theorem dec_chars_cons (d : Dec) (hip : d.ip ≠ []) :
    ∃ c0 cs, d.chars = c0 :: cs ∧ c0.isWhitespace = false ∧
      (c0 = '-' ∨ c0.isDigit = true) := by
  rcases hipc : d.ip with _ | ⟨i0, it⟩
  · exact absurd hipc hip
  · rcases hneg : d.neg with _ | _
    · refine ⟨finDigitChar i0, digitsChars it ++ '.' :: digitsChars d.fp, ?_, ?_, ?_⟩
      · simp [Dec.chars, hneg, digitsChars, hipc]
      · exact finDigitChar_not_ws i0
      · exact Or.inr (finDigitChar_isDigit i0)
    · refine ⟨'-', digitsChars d.ip ++ '.' :: digitsChars d.fp, ?_, ?_, ?_⟩
      · simp [Dec.chars, hneg]
      · decide
      · exact Or.inl rfl

theorem unit_symbol_cases (u : String) :
    unit_symbol u = "°C" ∨ unit_symbol u = "°F" ∨ unit_symbol u = "K" := by
  rw [unit_symbol]
  split_ifs <;> simp

theorem wind_unit_cases (u : String) :
    wind_unit u = "m/s" ∨ wind_unit u = "mph" := by
  rw [wind_unit]
  split_ifs <;> simp

theorem not_mem_unit_symbol (u : String) (c : Char) (h1 : c ≠ '°') (h2 : c ≠ 'C')
    (h3 : c ≠ 'F') (h4 : c ≠ 'K') : c ∉ (unit_symbol u).data := by
  rcases unit_symbol_cases u with h | h | h <;> rw [h] <;>
    simp [String.data] <;> simp_all

theorem not_mem_wind_unit (u : String) (c : Char) (h1 : c ≠ 'm') (h2 : c ≠ '/')
    (h3 : c ≠ 's') (h4 : c ≠ 'p') (h5 : c ≠ 'h') : c ∉ (wind_unit u).data := by
  rcases wind_unit_cases u with h | h <;> rw [h] <;>
    simp [String.data] <;> simp_all

theorem getLine_idx1 (l0 l1 l2 l3 l4 l5 l6 key : List Char)
    (h0 : subB key l0 = false) (h1 : subB key l1 = true) :
    getLine [l0, l1, l2, l3, l4, l5, l6] key = l1 := by
  simp [getLine, List.find?, h0, h1]

theorem getLine_idx3 (l0 l1 l2 l3 l4 l5 l6 key : List Char)
    (h0 : subB key l0 = false) (h1 : subB key l1 = false)
    (h2 : subB key l2 = false) (h3 : subB key l3 = true) :
    getLine [l0, l1, l2, l3, l4, l5, l6] key = l3 := by
  simp [getLine, List.find?, h0, h1, h2, h3]

theorem getLine_idx4 (l0 l1 l2 l3 l4 l5 l6 key : List Char)
    (h0 : subB key l0 = false) (h1 : subB key l1 = false)
    (h2 : subB key l2 = false) (h3 : subB key l3 = false)
    (h4 : subB key l4 = true) :
    getLine [l0, l1, l2, l3, l4, l5, l6] key = l4 := by
  simp [getLine, List.find?, h0, h1, h2, h3, h4]

theorem getLine_idx6 (l0 l1 l2 l3 l4 l5 l6 key : List Char)
    (h0 : subB key l0 = false) (h1 : subB key l1 = false)
    (h2 : subB key l2 = false) (h3 : subB key l3 = false)
    (h4 : subB key l4 = false) (h5 : subB key l5 = false)
    (h6 : subB key l6 = true) :
    getLine [l0, l1, l2, l3, l4, l5, l6] key = l6 := by
  simp [getLine, List.find?, h0, h1, h2, h3, h4, h5, h6]

theorem pyRtrim_drop_last (p : Char → Bool) (l : List Char) (c : Char)
    (hc : p c = true) : pyRtrim p (l ++ [c]) = pyRtrim p l := by
  simp [pyRtrim, List.dropWhile_cons, hc]

theorem pyRtrim_keep_last (p : Char → Bool) (l : List Char) (c : Char)
    (hc : p c = false) : pyRtrim p (l ++ [c]) = l ++ [c] := by
  simp [pyRtrim, List.dropWhile_cons, hc]

theorem splitWsGo_accum (w : List Char) (hw : ∀ c ∈ w, c.isWhitespace = false) :
    ∀ rest acc, splitWsGo (w ++ rest) acc = splitWsGo rest (w.reverse ++ acc) := by
  induction w with
  | nil => intro rest acc; simp
  | cons c cs ih =>
    intro rest acc
    have hc := hw c (List.mem_cons_self _ _)
    simp only [List.cons_append, splitWsGo, hc, Bool.false_eq_true, if_false]
    show splitWsGo (cs ++ rest) (c :: acc) = _
    rw [ih (fun x hx => hw x (List.mem_cons_of_mem _ hx)) rest (c :: acc)]
    simp

theorem pyRtrim_noop (p : Char → Bool) (l : List Char)
    (h : ∀ x ∈ l, p x = false) : pyRtrim p l = l := by
  cases hr : l.reverse with
  | nil =>
    have hl : l = [] := List.reverse_eq_nil_iff.mp hr
    subst hl
    rfl
  | cons x xs =>
    have hx : x ∈ l := by
      have : x ∈ l.reverse := by rw [hr]; exact List.mem_cons_self _ _
      simpa using this
    simp [pyRtrim, hr, List.dropWhile_cons, h x hx]
    rw [← List.reverse_cons, ← hr, List.reverse_reverse]

theorem digitsChars_class (ds : List (Fin 10)) :
    ∀ c ∈ digitsChars ds, c.isDigit = true := by
  intro c hc
  rcases mem_digitsChars _ _ hc with ⟨dd, rfl⟩
  exact finDigitChar_isDigit dd

/-- Humidity line round trip: `int(hline.split(':')[1].strip('% '))`
recovers the printed integer. -/
theorem parseHum_of_getLine (lines : List (List Char)) (H : List (Fin 10))
    (hne : H ≠ [])
    (hg : getLine lines "Humidity:".data =
      "💧 Humidity: ".data ++ digitsChars H ++ ['%']) :
    parseHum lines = some (digitsVal H : ℤ) := by
  simp only [parseHum]
  rw [hg, if_neg (by simp)]
  have hsplit : pySplit [':'] ("💧 Humidity: ".data ++ digitsChars H ++ ['%']) =
      ["💧 Humidity".data, ' ' :: (digitsChars H ++ ['%'])] := by
    have hshape : "💧 Humidity: ".data ++ digitsChars H ++ ['%'] =
        "💧 Humidity".data ++ [':'] ++ (' ' :: (digitsChars H ++ ['%'])) := by
      have hpre : "💧 Humidity: ".data = "💧 Humidity".data ++ [':', ' '] := by decide
      rw [hpre]
      simp
    rw [hshape, pySplit, splitSGo_first ':' [] _ _ (by decide)]
    rw [splitSGo_no_occ ':' [] _ ?hno]
    case hno =>
      intro hmem
      rcases hmem with _ | ⟨_, hmem⟩
      rcases List.mem_append.mp hmem with hmem | hmem
      · have := digitsChars_class H ':' hmem
        cases this
      · rcases hmem with _ | ⟨_, hmem⟩
        cases hmem
  rw [hsplit]
  simp only [List.getElem?_cons_succ, List.getElem?_cons_zero, Option.some_bind]
  rcases hH : digitsChars H with _ | ⟨d0, ds⟩
  · exact absurd hH (by simpa [digitsChars] using hne)
  · have hd0 : ∃ dd : Fin 10, d0 = finDigitChar dd := by
      have : d0 ∈ digitsChars H := by rw [hH]; exact List.mem_cons_self _ _
      exact mem_digitsChars _ _ this
    rcases hd0 with ⟨dd, rfl⟩
    have hpd0 : ((finDigitChar dd == '%') || (finDigitChar dd == ' ')) = false := by
      have h1 : finDigitChar dd ≠ '%' := finDigitChar_ne '%' (by decide) dd
      have h2 : finDigitChar dd ≠ ' ' := finDigitChar_ne ' ' (by decide) dd
      simp [h1, h2]
    have hltrim :
        (' ' :: (digitsChars H ++ ['%'])).dropWhile
            (fun c => c == '%' || c == ' ') =
          finDigitChar dd :: ds ++ ['%'] := by
      rw [List.dropWhile_cons]
      simp only [show ((' ' == '%') || (' ' == ' ')) = true from by decide, if_true]
      rw [hH, List.cons_append, List.dropWhile_cons]
      simp [hpd0]
    have hrtrim :
        pyRtrim (fun c => c == '%' || c == ' ')
            (finDigitChar dd :: ds ++ ['%']) =
          finDigitChar dd :: ds := by
      rw [show finDigitChar dd :: ds ++ ['%'] =
          (finDigitChar dd :: ds) ++ ['%'] from by simp]
      rw [pyRtrim_drop_last _ _ _ (by decide)]
      refine pyRtrim_noop _ _ ?_
      intro x hx
      have hxH : x ∈ digitsChars H := by rw [hH]; exact hx
      have hd := digitsChars_class H x hxH
      have h1 : x ≠ '%' := by intro hh; rw [hh] at hd; cases hd
      have h2 : x ≠ ' ' := by intro hh; rw [hh] at hd; cases hd
      simp [h1, h2]
    rw [pyTrim, ← hH, hltrim, hrtrim, ← hH]
    exact pyInt_digitsChars H hne

/-- Visibility line round trip: collecting the digits of the line and
applying `int` recovers the printed integer. -/
theorem parseVis_of_getLine (lines : List (List Char)) (V : List (Fin 10))
    (hne : V ≠ [])
    (hg : getLine lines "Visibility:".data =
      "👁️ Visibility: ".data ++ digitsChars V ++ " meters".data) :
    parseVis lines = some (digitsVal V : ℤ) := by
  simp only [parseVis]
  rw [hg, if_neg (by simp)]
  have hfix1 : "👁️ Visibility: ".data.filter Char.isDigit = [] := by decide
  have hfix2 : " meters".data.filter Char.isDigit = [] := by decide
  rw [List.filter_append, List.filter_append, hfix1, hfix2]
  rw [List.filter_eq_self.mpr (digitsChars_class V)]
  simp only [List.nil_append, List.append_nil]
  exact pyInt_digitsChars V hne

/-- Wind line round trip: `float(wline.split(':')[1].split()[0])`
recovers the printed decimal, for any whitespace-free, colon-free unit
label. -/
theorem parseWind_of_getLine (lines : List (List Char)) (W : Dec) (wu : List Char)
    (hipW : W.ip ≠ [])
    (hwu1 : ':' ∉ wu) (hwu2 : ∀ c ∈ wu, c.isWhitespace = false) (hwu3 : wu ≠ [])
    (hg : getLine lines "Wind Speed:".data =
      "💨 Wind Speed: ".data ++ W.chars ++ [' '] ++ wu) :
    parseWind lines = some W.val := by
  simp only [parseWind]
  rw [hg, if_neg (by simp)]
  have hWnw := dec_chars_not_ws W
  have hWcolon : ':' ∉ W.chars :=
    not_mem_dec_chars W ':' (by decide) (by decide) (by decide)
  have hsplit : pySplit [':'] ("💨 Wind Speed: ".data ++ W.chars ++ [' '] ++ wu) =
      ["💨 Wind Speed".data, ' ' :: (W.chars ++ [' '] ++ wu)] := by
    have hshape : "💨 Wind Speed: ".data ++ W.chars ++ [' '] ++ wu =
        "💨 Wind Speed".data ++ [':'] ++ (' ' :: (W.chars ++ [' '] ++ wu)) := by
      have hpre : "💨 Wind Speed: ".data = "💨 Wind Speed".data ++ [':', ' '] := by
        decide
      rw [hpre]
      simp
    rw [hshape, pySplit, splitSGo_first ':' [] _ _ (by decide)]
    rw [splitSGo_no_occ ':' [] _ ?hno]
    case hno =>
      intro hmem
      rcases List.mem_cons.mp hmem with heq | hmem
      · exact absurd heq (by decide)
      · rcases List.mem_append.mp hmem with hmem | hmem
        · rcases List.mem_append.mp hmem with hmem | hmem
          · exact hWcolon hmem
          · rcases List.mem_cons.mp hmem with heq | hmem
            · exact absurd heq (by decide)
            · cases hmem
        · exact hwu1 hmem
  rw [hsplit]
  simp only [List.getElem?_cons_succ, List.getElem?_cons_zero, Option.some_bind]
  obtain ⟨c0, cs, hWc, hc0ws, _⟩ := dec_chars_cons W hipW
  have hWne : W.chars ≠ [] := by rw [hWc]; exact List.cons_ne_nil _ _
  have hWrevne : W.chars.reverse.isEmpty = false := by
    cases hrv : W.chars.reverse with
    | nil => exact absurd (List.reverse_eq_nil_iff.mp hrv) hWne
    | cons a as => rfl
  have hwurevne : wu.reverse.isEmpty = false := by
    cases hrv : wu.reverse with
    | nil => exact absurd (List.reverse_eq_nil_iff.mp hrv) hwu3
    | cons a as => rfl
  have step4 : splitWsGo wu [] = [wu] := by
    have := splitWsGo_accum wu hwu2 [] []
    simp only [List.append_nil] at this
    rw [this, splitWsGo, hwurevne]
    simp
  have htok : pyWsTokens (' ' :: (W.chars ++ [' '] ++ wu)) = [W.chars, wu] := by
    rw [pyWsTokens, splitWsGo]
    simp only [show (' '.isWhitespace) = true from by decide, if_true,
      List.isEmpty_nil]
    rw [show W.chars ++ [' '] ++ wu = W.chars ++ (' ' :: wu) from by simp]
    rw [splitWsGo_accum W.chars (dec_chars_not_ws W) (' ' :: wu) []]
    rw [splitWsGo]
    simp only [show (' '.isWhitespace) = true from by decide, if_true,
      List.append_nil, hWrevne, Bool.false_eq_true, if_false, step4,
      List.reverse_reverse]
  rw [htok]
  simp only [List.getElem?_cons_zero, Option.some_bind]
  exact pyFloat_dec_chars W hipW

theorem not_mem_app {c : Char} {a b : List Char} (ha : c ∉ a) (hb : c ∉ b) :
    c ∉ a ++ b := fun h => (List.mem_append.mp h).elim (fun x => ha x) (fun x => hb x)

theorem not_mem_cons2 {c a : Char} {l : List Char} (h1 : c ≠ a) (h2 : c ∉ l) :
    c ∉ a :: l := by
  intro h
  rcases List.mem_cons.mp h with h | h
  · exact h1 h
  · exact h2 h

/-- Temperature extraction succeeds on the rendered line when the unit
symbol is a two-character `°`-symbol (`°C` or `°F`):
`float(tline.split('Temperature:')[1].split('(')[0].strip().split('°')[0])`
recovers the printed decimal. -/
theorem parseTemp_of_getLine (lines : List (List Char)) (T F : Dec) (u : Char)
    (hipT : T.ip ≠ [])
    (hu1 : u ≠ 'T') (hu2 : u ≠ '(') (hu3 : u.isWhitespace = false)
    (hg : getLine lines "Temperature:".data =
      "🌡️ Temperature: ".data ++ T.chars ++ ['°', u] ++
        " (feels like ".data ++ F.chars ++ ['°', u] ++ [')']) :
    parseTemp lines = some T.val := by
  simp only [parseTemp]
  rw [hg, if_neg (by simp)]
  have hTu : 'T' ∉ ['°', u] := by
    intro h
    rcases List.mem_cons.mp h with h | h
    · exact absurd h (by decide)
    · rcases List.mem_cons.mp h with h | h
      · exact hu1 h.symm
      · exact (List.not_mem_nil _) h
  have hT1 : 'T' ∉ T.chars := not_mem_dec_chars T 'T' (by decide) (by decide) (by decide)
  have hT2 : 'T' ∉ F.chars := not_mem_dec_chars F 'T' (by decide) (by decide) (by decide)
  have hshape1 : "🌡️ Temperature: ".data ++ T.chars ++ ['°', u] ++
        " (feels like ".data ++ F.chars ++ ['°', u] ++ [')'] =
      "🌡️ ".data ++ "Temperature:".data ++
        (' ' :: (T.chars ++ ['°', u] ++ " (feels like ".data ++ F.chars ++
          ['°', u] ++ [')'])) := by
    have hpre : "🌡️ Temperature: ".data =
        "🌡️ ".data ++ "Temperature:".data ++ [' '] := by decide
    rw [hpre]
    simp
  have hkey : "Temperature:".data = 'T' :: "emperature:".data := by decide
  have hTtail : 'T' ∉ ' ' :: (T.chars ++ ['°', u] ++ " (feels like ".data ++
      F.chars ++ ['°', u] ++ [')']) :=
    not_mem_cons2 (by decide)
      (not_mem_app (not_mem_app (not_mem_app (not_mem_app
        (not_mem_app hT1 hTu) (by decide)) hT2) hTu) (by decide))
  have hsplit1 : pySplit "Temperature:".data
      ("🌡️ Temperature: ".data ++ T.chars ++ ['°', u] ++
        " (feels like ".data ++ F.chars ++ ['°', u] ++ [')']) =
      ["🌡️ ".data,
        ' ' :: (T.chars ++ ['°', u] ++ " (feels like ".data ++ F.chars ++
          ['°', u] ++ [')'])] := by
    rw [hshape1, hkey, pySplit, splitSGo_first 'T' "emperature:".data _ _ (by decide)]
    rw [splitSGo_no_occ 'T' "emperature:".data _ hTtail]
  rw [hsplit1]
  simp only [List.getElem?_cons_succ, List.getElem?_cons_zero, Option.some_bind]
  have hshape2 : ' ' :: (T.chars ++ ['°', u] ++ " (feels like ".data ++ F.chars ++
        ['°', u] ++ [')']) =
      (' ' :: (T.chars ++ ['°', u] ++ [' '])) ++ ['('] ++
        ("feels like ".data ++ F.chars ++ ['°', u] ++ [')']) := by
    have hmid : " (feels like ".data = [' ', '('] ++ "feels like ".data := by decide
    rw [hmid]
    simp
  have hparen : '(' ∉ ' ' :: (T.chars ++ ['°', u] ++ [' ']) :=
    not_mem_cons2 (by decide)
      (not_mem_app (not_mem_app
        (not_mem_dec_chars T '(' (by decide) (by decide) (by decide))
        (by intro h
            rcases List.mem_cons.mp h with h | h
            · exact absurd h (by decide)
            · rcases List.mem_cons.mp h with h | h
              · exact hu2 h.symm
              · exact (List.not_mem_nil _) h))
        (by decide))
  have hsplit2 : pySplit ['(']
      (' ' :: (T.chars ++ ['°', u] ++ " (feels like ".data ++ F.chars ++
        ['°', u] ++ [')'])) =
      (' ' :: (T.chars ++ ['°', u] ++ [' '])) ::
        pySplit ['(']
          ("feels like ".data ++ F.chars ++ ['°', u] ++ [')']) := by
    rw [hshape2, pySplit]
    exact splitSGo_first '(' [] _ _ hparen
  rw [hsplit2]
  simp only [List.getElem?_cons_zero, Option.some_bind]
  obtain ⟨c0, cs, hTc, hc0ws, _⟩ := dec_chars_cons T hipT
  have hltrim : (' ' :: (T.chars ++ ['°', u] ++ [' '])).dropWhile
      (fun c => c.isWhitespace) = T.chars ++ ['°', u] ++ [' '] := by
    rw [List.dropWhile_cons]
    simp only [show (' '.isWhitespace) = true from by decide, if_true]
    rw [hTc]
    rw [show (c0 :: cs) ++ ['°', u] ++ [' '] = c0 :: (cs ++ ['°', u] ++ [' ']) from
      by simp]
    rw [List.dropWhile_cons]
    simp [hc0ws]
  have hrtrim : pyRtrim (fun c => c.isWhitespace) (T.chars ++ ['°', u] ++ [' ']) =
      T.chars ++ ['°', u] := by
    rw [show T.chars ++ ['°', u] ++ [' '] = (T.chars ++ ['°', u]) ++ [' '] from
      by simp]
    rw [pyRtrim_drop_last _ _ _ (by decide)]
    rw [show T.chars ++ ['°', u] = (T.chars ++ ['°']) ++ [u] from by simp]
    rw [pyRtrim_keep_last _ _ _ hu3]
  rw [pyTrim, hltrim, hrtrim]
  have hsplit3 : pySplit ['°'] (T.chars ++ ['°', u]) =
      T.chars :: pySplit ['°'] [u] := by
    rw [show T.chars ++ ['°', u] = T.chars ++ ['°'] ++ [u] from by simp,
      pySplit]
    exact splitSGo_first '°' [] _ _
      (not_mem_dec_chars T '°' (by decide) (by decide) (by decide))
  rw [hsplit3]
  simp only [List.getElem?_cons_zero, Option.some_bind]
  exact pyFloat_dec_chars T hipT

theorem mem_app_l {c : Char} {a b : List Char} (h : c ∈ a) : c ∈ a ++ b :=
  List.mem_append.mpr (Or.inl h)

theorem mem_app_r {c : Char} {a b : List Char} (h : c ∈ b) : c ∈ a ++ b :=
  List.mem_append.mpr (Or.inr h)

/-- Feels-like extraction succeeds on the rendered line for a
two-character `°`-symbol:
`float(tline.split('feels like')[-1].rstrip(')').strip().split('°')[0])`
recovers the printed decimal. -/
theorem parseFeels_of_getLine (lines : List (List Char)) (T F : Dec) (u : Char)
    (hipF : F.ip ≠ [])
    (hu1 : u ≠ 'f') (hu2 : u ≠ ')') (hu3 : u.isWhitespace = false)
    (hg : getLine lines "Temperature:".data =
      "🌡️ Temperature: ".data ++ T.chars ++ ['°', u] ++
        " (feels like ".data ++ F.chars ++ ['°', u] ++ [')']) :
    parseFeels lines = some F.val := by
  simp only [parseFeels]
  rw [hg]
  rw [if_pos ?hcond]
  case hcond =>
    constructor
    · simp
    · exact mem_app_l (mem_app_l (mem_app_l (mem_app_r (by decide))))
  have hfu : 'f' ∉ ['°', u] := by
    intro h
    rcases List.mem_cons.mp h with h | h
    · exact absurd h (by decide)
    · rcases List.mem_cons.mp h with h | h
      · exact hu1 h.symm
      · exact (List.not_mem_nil _) h
  have hfT : 'f' ∉ T.chars := not_mem_dec_chars T 'f' (by decide) (by decide) (by decide)
  have hfF : 'f' ∉ F.chars := not_mem_dec_chars F 'f' (by decide) (by decide) (by decide)
  have hshape : "🌡️ Temperature: ".data ++ T.chars ++ ['°', u] ++
        " (feels like ".data ++ F.chars ++ ['°', u] ++ [')'] =
      ("🌡️ Temperature: ".data ++ T.chars ++ ['°', u] ++ " (".data) ++
        "feels like".data ++ (' ' :: (F.chars ++ ['°', u] ++ [')'])) := by
    have hmid : " (feels like ".data = " (".data ++ "feels like".data ++ [' '] := by
      decide
    rw [hmid]
    simp
  have hkey : "feels like".data = 'f' :: "eels like".data := by decide
  have hfA : 'f' ∉ "🌡️ Temperature: ".data ++ T.chars ++ ['°', u] ++ " (".data :=
    not_mem_app (not_mem_app (not_mem_app (by decide) hfT) hfu) (by decide)
  have hfB : 'f' ∉ ' ' :: (F.chars ++ ['°', u] ++ [')']) :=
    not_mem_cons2 (by decide)
      (not_mem_app (not_mem_app hfF hfu) (by decide))
  have hsplitF : pySplit "feels like".data
      ("🌡️ Temperature: ".data ++ T.chars ++ ['°', u] ++
        " (feels like ".data ++ F.chars ++ ['°', u] ++ [')']) =
      ["🌡️ Temperature: ".data ++ T.chars ++ ['°', u] ++ " (".data,
        ' ' :: (F.chars ++ ['°', u] ++ [')'])] := by
    rw [hshape, hkey, pySplit, splitSGo_first 'f' "eels like".data _ _ hfA]
    rw [splitSGo_no_occ 'f' "eels like".data _ hfB]
  rw [hsplitF]
  have hlast : (["🌡️ Temperature: ".data ++ T.chars ++ ['°', u] ++ " (".data,
      ' ' :: (F.chars ++ ['°', u] ++ [')'])]).getLast? =
      some (' ' :: (F.chars ++ ['°', u] ++ [')'])) := by
    simp
  rw [hlast]
  simp only [Option.some_bind]
  have hrpar : pyRtrim (fun c => c == ')') (' ' :: (F.chars ++ ['°', u] ++ [')'])) =
      ' ' :: (F.chars ++ ['°', u]) := by
    rw [show ' ' :: (F.chars ++ ['°', u] ++ [')']) =
        (' ' :: (F.chars ++ ['°', u])) ++ [')'] from by simp]
    rw [pyRtrim_drop_last _ _ _ (by decide)]
    rw [show ' ' :: (F.chars ++ ['°', u]) = (' ' :: (F.chars ++ ['°'])) ++ [u] from
      by simp]
    rw [pyRtrim_keep_last _ _ _ (by simp [hu2])]
  rw [hrpar]
  obtain ⟨c0, cs, hFc, hc0ws, _⟩ := dec_chars_cons F hipF
  have hltrim : (' ' :: (F.chars ++ ['°', u])).dropWhile
      (fun c => c.isWhitespace) = F.chars ++ ['°', u] := by
    rw [List.dropWhile_cons]
    simp only [show (' '.isWhitespace) = true from by decide, if_true]
    rw [hFc]
    rw [show (c0 :: cs) ++ ['°', u] = c0 :: (cs ++ ['°', u]) from by simp]
    rw [List.dropWhile_cons]
    simp [hc0ws]
  have hrtrim : pyRtrim (fun c => c.isWhitespace) (F.chars ++ ['°', u]) =
      F.chars ++ ['°', u] := by
    rw [show F.chars ++ ['°', u] = (F.chars ++ ['°']) ++ [u] from by simp]
    rw [pyRtrim_keep_last _ _ _ hu3]
  rw [pyTrim, hltrim, hrtrim]
  have hsplit3 : pySplit ['°'] (F.chars ++ ['°', u]) =
      F.chars :: pySplit ['°'] [u] := by
    rw [show F.chars ++ ['°', u] = F.chars ++ ['°'] ++ [u] from by simp,
      pySplit]
    exact splitSGo_first '°' [] _ _
      (not_mem_dec_chars F '°' (by decide) (by decide) (by decide))
  rw [hsplit3]
  simp only [List.getElem?_cons_zero, Option.some_bind]
  exact pyFloat_dec_chars F hipF

/-- Temperature extraction fails on a kelvin-rendered line: the numeric
token retains its trailing `K`, which `float` rejects. -/
theorem parseTemp_of_getLine_kelvin (lines : List (List Char)) (T F : Dec)
    (hipT : T.ip ≠ [])
    (hg : getLine lines "Temperature:".data =
      "🌡️ Temperature: ".data ++ T.chars ++ ['K'] ++
        " (feels like ".data ++ F.chars ++ ['K'] ++ [')']) :
    parseTemp lines = none := by
  simp only [parseTemp]
  rw [hg, if_neg (by simp)]
  have hT1 : 'T' ∉ T.chars := not_mem_dec_chars T 'T' (by decide) (by decide) (by decide)
  have hT2 : 'T' ∉ F.chars := not_mem_dec_chars F 'T' (by decide) (by decide) (by decide)
  have hshape1 : "🌡️ Temperature: ".data ++ T.chars ++ ['K'] ++
        " (feels like ".data ++ F.chars ++ ['K'] ++ [')'] =
      "🌡️ ".data ++ "Temperature:".data ++
        (' ' :: (T.chars ++ ['K'] ++ " (feels like ".data ++ F.chars ++
          ['K'] ++ [')'])) := by
    have hpre : "🌡️ Temperature: ".data =
        "🌡️ ".data ++ "Temperature:".data ++ [' '] := by decide
    rw [hpre]
    simp
  have hkey : "Temperature:".data = 'T' :: "emperature:".data := by decide
  have hTtail : 'T' ∉ ' ' :: (T.chars ++ ['K'] ++ " (feels like ".data ++
      F.chars ++ ['K'] ++ [')']) :=
    not_mem_cons2 (by decide)
      (not_mem_app (not_mem_app (not_mem_app (not_mem_app
        (not_mem_app hT1 (by decide)) (by decide)) hT2) (by decide)) (by decide))
  have hsplit1 : pySplit "Temperature:".data
      ("🌡️ Temperature: ".data ++ T.chars ++ ['K'] ++
        " (feels like ".data ++ F.chars ++ ['K'] ++ [')']) =
      ["🌡️ ".data,
        ' ' :: (T.chars ++ ['K'] ++ " (feels like ".data ++ F.chars ++
          ['K'] ++ [')'])] := by
    rw [hshape1, hkey, pySplit, splitSGo_first 'T' "emperature:".data _ _ (by decide)]
    rw [splitSGo_no_occ 'T' "emperature:".data _ hTtail]
  rw [hsplit1]
  simp only [List.getElem?_cons_succ, List.getElem?_cons_zero, Option.some_bind]
  have hshape2 : ' ' :: (T.chars ++ ['K'] ++ " (feels like ".data ++ F.chars ++
        ['K'] ++ [')']) =
      (' ' :: (T.chars ++ ['K'] ++ [' '])) ++ ['('] ++
        ("feels like ".data ++ F.chars ++ ['K'] ++ [')']) := by
    have hmid : " (feels like ".data = [' ', '('] ++ "feels like ".data := by decide
    rw [hmid]
    simp
  have hparen : '(' ∉ ' ' :: (T.chars ++ ['K'] ++ [' ']) :=
    not_mem_cons2 (by decide)
      (not_mem_app (not_mem_app
        (not_mem_dec_chars T '(' (by decide) (by decide) (by decide))
        (by decide))
        (by decide))
  have hsplit2 : pySplit ['(']
      (' ' :: (T.chars ++ ['K'] ++ " (feels like ".data ++ F.chars ++
        ['K'] ++ [')'])) =
      (' ' :: (T.chars ++ ['K'] ++ [' '])) ::
        pySplit ['(']
          ("feels like ".data ++ F.chars ++ ['K'] ++ [')']) := by
    rw [hshape2, pySplit]
    exact splitSGo_first '(' [] _ _ hparen
  rw [hsplit2]
  simp only [List.getElem?_cons_zero, Option.some_bind]
  obtain ⟨c0, cs, hTc, hc0ws, _⟩ := dec_chars_cons T hipT
  have hltrim : (' ' :: (T.chars ++ ['K'] ++ [' '])).dropWhile
      (fun c => c.isWhitespace) = T.chars ++ ['K'] ++ [' '] := by
    rw [List.dropWhile_cons]
    simp only [show (' '.isWhitespace) = true from by decide, if_true]
    rw [hTc]
    rw [show (c0 :: cs) ++ ['K'] ++ [' '] = c0 :: (cs ++ ['K'] ++ [' ']) from
      by simp]
    rw [List.dropWhile_cons]
    simp [hc0ws]
  have hrtrim : pyRtrim (fun c => c.isWhitespace) (T.chars ++ ['K'] ++ [' ']) =
      T.chars ++ ['K'] := by
    rw [show T.chars ++ ['K'] ++ [' '] = (T.chars ++ ['K']) ++ [' '] from by simp]
    rw [pyRtrim_drop_last _ _ _ (by decide)]
    rw [pyRtrim_keep_last _ _ _ (by decide)]
  rw [pyTrim, hltrim, hrtrim]
  have hno : '°' ∉ T.chars ++ ['K'] :=
    not_mem_app (not_mem_dec_chars T '°' (by decide) (by decide) (by decide))
      (by decide)
  rw [show pySplit ['°'] (T.chars ++ ['K']) = [T.chars ++ ['K']] from
    splitSGo_no_occ '°' [] _ hno]
  simp only [List.getElem?_cons_zero, Option.some_bind]
  exact pyFloat_dec_chars_junk T 'K' hipT (by decide) (by decide)

/-- Feels-like extraction fails on a kelvin-rendered line for the same
reason. -/
theorem parseFeels_of_getLine_kelvin (lines : List (List Char)) (T F : Dec)
    (hipF : F.ip ≠ [])
    (hg : getLine lines "Temperature:".data =
      "🌡️ Temperature: ".data ++ T.chars ++ ['K'] ++
        " (feels like ".data ++ F.chars ++ ['K'] ++ [')']) :
    parseFeels lines = none := by
  simp only [parseFeels]
  rw [hg]
  rw [if_pos ?hcond]
  case hcond =>
    constructor
    · simp
    · exact mem_app_l (mem_app_l (mem_app_l (mem_app_r (by decide))))
  have hfT : 'f' ∉ T.chars := not_mem_dec_chars T 'f' (by decide) (by decide) (by decide)
  have hfF : 'f' ∉ F.chars := not_mem_dec_chars F 'f' (by decide) (by decide) (by decide)
  have hshape : "🌡️ Temperature: ".data ++ T.chars ++ ['K'] ++
        " (feels like ".data ++ F.chars ++ ['K'] ++ [')'] =
      ("🌡️ Temperature: ".data ++ T.chars ++ ['K'] ++ " (".data) ++
        "feels like".data ++ (' ' :: (F.chars ++ ['K'] ++ [')'])) := by
    have hmid : " (feels like ".data = " (".data ++ "feels like".data ++ [' '] := by
      decide
    rw [hmid]
    simp
  have hkey : "feels like".data = 'f' :: "eels like".data := by decide
  have hfA : 'f' ∉ "🌡️ Temperature: ".data ++ T.chars ++ ['K'] ++ " (".data :=
    not_mem_app (not_mem_app (not_mem_app (by decide) hfT) (by decide)) (by decide)
  have hfB : 'f' ∉ ' ' :: (F.chars ++ ['K'] ++ [')']) :=
    not_mem_cons2 (by decide)
      (not_mem_app (not_mem_app hfF (by decide)) (by decide))
  have hsplitF : pySplit "feels like".data
      ("🌡️ Temperature: ".data ++ T.chars ++ ['K'] ++
        " (feels like ".data ++ F.chars ++ ['K'] ++ [')']) =
      ["🌡️ Temperature: ".data ++ T.chars ++ ['K'] ++ " (".data,
        ' ' :: (F.chars ++ ['K'] ++ [')'])] := by
    rw [hshape, hkey, pySplit, splitSGo_first 'f' "eels like".data _ _ hfA]
    rw [splitSGo_no_occ 'f' "eels like".data _ hfB]
  rw [hsplitF]
  have hlast : (["🌡️ Temperature: ".data ++ T.chars ++ ['K'] ++ " (".data,
      ' ' :: (F.chars ++ ['K'] ++ [')'])]).getLast? =
      some (' ' :: (F.chars ++ ['K'] ++ [')'])) := by
    simp
  rw [hlast]
  simp only [Option.some_bind]
  have hrpar : pyRtrim (fun c => c == ')') (' ' :: (F.chars ++ ['K'] ++ [')'])) =
      ' ' :: (F.chars ++ ['K']) := by
    rw [show ' ' :: (F.chars ++ ['K'] ++ [')']) =
        (' ' :: (F.chars ++ ['K'])) ++ [')'] from by simp]
    rw [pyRtrim_drop_last _ _ _ (by decide)]
    rw [show ' ' :: (F.chars ++ ['K']) = (' ' :: F.chars) ++ ['K'] from by simp]
    rw [pyRtrim_keep_last _ _ _ (by decide)]
  rw [hrpar]
  obtain ⟨c0, cs, hFc, hc0ws, _⟩ := dec_chars_cons F hipF
  have hltrim : (' ' :: (F.chars ++ ['K'])).dropWhile
      (fun c => c.isWhitespace) = F.chars ++ ['K'] := by
    rw [List.dropWhile_cons]
    simp only [show (' '.isWhitespace) = true from by decide, if_true]
    rw [hFc]
    rw [show (c0 :: cs) ++ ['K'] = c0 :: (cs ++ ['K']) from by simp]
    rw [List.dropWhile_cons]
    simp [hc0ws]
  have hrtrim : pyRtrim (fun c => c.isWhitespace) (F.chars ++ ['K']) =
      F.chars ++ ['K'] := by
    rw [pyRtrim_keep_last _ _ _ (by decide)]
  rw [pyTrim, hltrim, hrtrim]
  have hno : '°' ∉ F.chars ++ ['K'] :=
    not_mem_app (not_mem_dec_chars F '°' (by decide) (by decide) (by decide))
      (by decide)
  rw [show pySplit ['°'] (F.chars ++ ['K']) = [F.chars ++ ['K']] from
    splitSGo_no_occ '°' [] _ hno]
  simp only [List.getElem?_cons_zero, Option.some_bind]
  exact pyFloat_dec_chars_junk F 'K' hipF (by decide) (by decide)

/-- Splitting the rendered report on newlines recovers the seven lines
when the free-text fields contain no newline. -/
theorem pyLines_formatted (r : WeatherReport)
    (h1 : '\n' ∉ r.location.data) (h2 : '\n' ∉ r.description.data) :
    pyLines (formatted_response r) = reportLines r := by
  rw [pyLines, formatted_response]
  rw [show (String.mk (joinSep ['\n'] (reportLines r))).data =
      joinSep ['\n'] (reportLines r) from rfl]
  apply pySplit_join
  · simp [reportLines]
  · intro x hx
    have hTn : '\n' ∉ r.temperature.chars :=
      not_mem_dec_chars _ '\n' (by decide) (by decide) (by decide)
    have hFn : '\n' ∉ r.feels_like.chars :=
      not_mem_dec_chars _ '\n' (by decide) (by decide) (by decide)
    have hWn : '\n' ∉ r.wind_speed.chars :=
      not_mem_dec_chars _ '\n' (by decide) (by decide) (by decide)
    have hsn : '\n' ∉ (unit_symbol r.units).data :=
      not_mem_unit_symbol _ '\n' (by decide) (by decide) (by decide) (by decide)
    have hwn : '\n' ∉ (wind_unit r.units).data :=
      not_mem_wind_unit _ '\n' (by decide) (by decide) (by decide) (by decide)
        (by decide)
    simp only [reportLines, List.mem_cons, List.not_mem_nil, or_false] at hx
    rcases hx with rfl | rfl | rfl | rfl | rfl | rfl | rfl
    · exact not_mem_app (not_mem_app (by decide) h1) (by decide)
    · rw [tempLine]
      exact not_mem_app (not_mem_app (not_mem_app (not_mem_app (not_mem_app
        (not_mem_app (by decide) hTn) hsn) (by decide)) hFn) hsn) (by decide)
    · rw [condLine]
      exact not_mem_app (by decide) h2
    · rw [humLine]
      exact not_mem_app (not_mem_app (by decide)
        (not_mem_digitsChars _ '\n' (by decide))) (by decide)
    · rw [windLine]
      exact not_mem_app (not_mem_app (not_mem_app (by decide) hWn) (by decide)) hwn
    · rw [presLine]
      exact not_mem_app (not_mem_app (by decide)
        (not_mem_digitsChars _ '\n' (by decide))) (by decide)
    · rw [visLine]
      rcases hv : r.visibility with _ | vv
      · exact not_mem_app (not_mem_app (by decide) (by decide)) (by decide)
      · exact not_mem_app (not_mem_app (by decide)
          (not_mem_digitsChars _ '\n' (by decide))) (by decide)

/-- Sanity conditions matching what the upstream provider actually
feeds the renderer: the free-text location and description contain no
newline and no field label, and the numeric fields are decimal numerals
as Python prints them. -/
def Benign (r : WeatherReport) : Prop :=
  '\n' ∉ r.location.data ∧ '\n' ∉ r.description.data ∧
  subB "Temperature:".data (titleLine r) = false ∧
  subB "Humidity:".data (titleLine r) = false ∧
  subB "Wind Speed:".data (titleLine r) = false ∧
  subB "Visibility:".data (titleLine r) = false ∧
  subB "Humidity:".data (condLine r) = false ∧
  subB "Wind Speed:".data (condLine r) = false ∧
  subB "Visibility:".data (condLine r) = false ∧
  r.temperature.ip ≠ [] ∧ r.temperature.fp ≠ [] ∧
  r.feels_like.ip ≠ [] ∧ r.feels_like.fp ≠ [] ∧
  r.wind_speed.ip ≠ [] ∧ r.wind_speed.fp ≠ [] ∧
  r.humidity ≠ []

/-- C1 (amended): rendering a fully-populated benign report to the
canonical text and re-parsing it with the Rule Engine recovers
temperature, feels-like, humidity, wind speed and visibility exactly —
when the units are metric or imperial.  With kelvin units humidity,
wind speed and visibility are still recovered, but temperature and
feels-like parse to nothing: the numeric token keeps its trailing `K`,
which `float` rejects. -/
theorem c1_round_trip (r : WeatherReport) (v : List (Fin 10))
    (hb : Benign r) (hv : r.visibility = some v) (hvne : v ≠ []) :
    ((r.units = "metric" ∨ r.units = "imperial") →
      parseTemp (pyLines (formatted_response r)) = some r.temperature.val ∧
      parseFeels (pyLines (formatted_response r)) = some r.feels_like.val ∧
      parseHum (pyLines (formatted_response r)) = some (digitsVal r.humidity : ℤ) ∧
      parseWind (pyLines (formatted_response r)) = some r.wind_speed.val ∧
      parseVis (pyLines (formatted_response r)) = some (digitsVal v : ℤ)) ∧
    (r.units = "kelvin" →
      parseTemp (pyLines (formatted_response r)) = none ∧
      parseFeels (pyLines (formatted_response r)) = none ∧
      parseHum (pyLines (formatted_response r)) = some (digitsVal r.humidity : ℤ) ∧
      parseWind (pyLines (formatted_response r)) = some r.wind_speed.val ∧
      parseVis (pyLines (formatted_response r)) = some (digitsVal v : ℤ)) := by
  obtain ⟨hln, hdn, ht0, hh0, hw0, hv0, hh2, hw2, hv2, hTip, hTfp, hFip, hFfp,
    hWip, hWfp, hHne⟩ := hb
  have hlines := pyLines_formatted r hln hdn
  have hgT : getLine (reportLines r) "Temperature:".data = tempLine r := by
    rw [reportLines]
    refine getLine_idx1 _ _ _ _ _ _ _ _ ht0 ?_
    rw [tempLine]
    exact subB_append_right _ _ _ (subB_append_right _ _ _ (subB_append_right _ _ _
      (subB_append_right _ _ _ (subB_append_right _ _ _ (subB_append_right _ _ _
        (by decide))))))
  have hHsym : 'H' ∉ (unit_symbol r.units).data :=
    not_mem_unit_symbol _ 'H' (by decide) (by decide) (by decide) (by decide)
  have hHtemp : subB "Humidity:".data (tempLine r) = false := by
    rw [show "Humidity:".data = 'H' :: "umidity:".data from by decide]
    apply subB_eq_false_of_head_not_mem
    rw [tempLine]
    exact not_mem_app (not_mem_app (not_mem_app (not_mem_app (not_mem_app
      (not_mem_app (by decide)
        (not_mem_dec_chars _ 'H' (by decide) (by decide) (by decide))) hHsym)
      (by decide))
      (not_mem_dec_chars _ 'H' (by decide) (by decide) (by decide))) hHsym)
      (by decide)
  have hgH : getLine (reportLines r) "Humidity:".data = humLine r := by
    rw [reportLines]
    refine getLine_idx3 _ _ _ _ _ _ _ _ hh0 hHtemp hh2 ?_
    rw [humLine]
    exact subB_append_right _ _ _ (subB_append_right _ _ _ (by decide))
  have hWsym : 'W' ∉ (unit_symbol r.units).data :=
    not_mem_unit_symbol _ 'W' (by decide) (by decide) (by decide) (by decide)
  have hWtemp : subB "Wind Speed:".data (tempLine r) = false := by
    rw [show "Wind Speed:".data = 'W' :: "ind Speed:".data from by decide]
    apply subB_eq_false_of_head_not_mem
    rw [tempLine]
    exact not_mem_app (not_mem_app (not_mem_app (not_mem_app (not_mem_app
      (not_mem_app (by decide)
        (not_mem_dec_chars _ 'W' (by decide) (by decide) (by decide))) hWsym)
      (by decide))
      (not_mem_dec_chars _ 'W' (by decide) (by decide) (by decide))) hWsym)
      (by decide)
  have hWhum : subB "Wind Speed:".data (humLine r) = false := by
    rw [show "Wind Speed:".data = 'W' :: "ind Speed:".data from by decide]
    apply subB_eq_false_of_head_not_mem
    rw [humLine]
    exact not_mem_app (not_mem_app (by decide)
      (not_mem_digitsChars _ 'W' (by decide))) (by decide)
  have hgW : getLine (reportLines r) "Wind Speed:".data = windLine r := by
    rw [reportLines]
    refine getLine_idx4 _ _ _ _ _ _ _ _ hw0 hWtemp hw2 hWhum ?_
    rw [windLine]
    exact subB_append_right _ _ _ (subB_append_right _ _ _ (subB_append_right _ _ _
      (by decide)))
  have hVsym : 'V' ∉ (unit_symbol r.units).data :=
    not_mem_unit_symbol _ 'V' (by decide) (by decide) (by decide) (by decide)
  have hVwu : 'V' ∉ (wind_unit r.units).data :=
    not_mem_wind_unit _ 'V' (by decide) (by decide) (by decide) (by decide)
      (by decide)
  have hVtemp : subB "Visibility:".data (tempLine r) = false := by
    rw [show "Visibility:".data = 'V' :: "isibility:".data from by decide]
    apply subB_eq_false_of_head_not_mem
    rw [tempLine]
    exact not_mem_app (not_mem_app (not_mem_app (not_mem_app (not_mem_app
      (not_mem_app (by decide)
        (not_mem_dec_chars _ 'V' (by decide) (by decide) (by decide))) hVsym)
      (by decide))
      (not_mem_dec_chars _ 'V' (by decide) (by decide) (by decide))) hVsym)
      (by decide)
  have hVhum : subB "Visibility:".data (humLine r) = false := by
    rw [show "Visibility:".data = 'V' :: "isibility:".data from by decide]
    apply subB_eq_false_of_head_not_mem
    rw [humLine]
    exact not_mem_app (not_mem_app (by decide)
      (not_mem_digitsChars _ 'V' (by decide))) (by decide)
  have hVwind : subB "Visibility:".data (windLine r) = false := by
    rw [show "Visibility:".data = 'V' :: "isibility:".data from by decide]
    apply subB_eq_false_of_head_not_mem
    rw [windLine]
    exact not_mem_app (not_mem_app (not_mem_app (by decide)
      (not_mem_dec_chars _ 'V' (by decide) (by decide) (by decide))) (by decide))
      hVwu
  have hVpres : subB "Visibility:".data (presLine r) = false := by
    rw [show "Visibility:".data = 'V' :: "isibility:".data from by decide]
    apply subB_eq_false_of_head_not_mem
    rw [presLine]
    exact not_mem_app (not_mem_app (by decide)
      (not_mem_digitsChars _ 'V' (by decide))) (by decide)
  have hgV : getLine (reportLines r) "Visibility:".data = visLine r := by
    rw [reportLines]
    refine getLine_idx6 _ _ _ _ _ _ _ _ hv0 hVtemp hv2 hVhum hVwind hVpres ?_
    rw [visLine]
    exact subB_append_right _ _ _ (subB_append_right _ _ _ (by decide))
  have hHum : parseHum (pyLines (formatted_response r)) =
      some (digitsVal r.humidity : ℤ) := by
    rw [hlines]
    exact parseHum_of_getLine _ _ hHne (by rw [hgH, humLine])
  have hWind : parseWind (pyLines (formatted_response r)) =
      some r.wind_speed.val := by
    rw [hlines]
    refine parseWind_of_getLine _ _ ((wind_unit r.units).data) hWip
      (not_mem_wind_unit _ ':' (by decide) (by decide) (by decide) (by decide)
        (by decide))
      ?_ ?_ (by rw [hgW, windLine])
    · intro c hc
      rcases wind_unit_cases r.units with h | h <;> rw [h] at hc <;>
        simp only [String.data] at hc <;> simp at hc <;>
        rcases hc with rfl | rfl | rfl <;> rfl
    · rcases wind_unit_cases r.units with h | h <;> rw [h] <;> decide
  have hVis : parseVis (pyLines (formatted_response r)) =
      some (digitsVal v : ℤ) := by
    rw [hlines]
    exact parseVis_of_getLine _ _ hvne (by rw [hgV, visLine, hv])
  refine ⟨?_, ?_⟩
  · rintro (hu | hu)
    · have hsym : unit_symbol r.units = "°C" := by rw [hu]; decide
      have hgT2 : getLine (reportLines r) "Temperature:".data =
          "🌡️ Temperature: ".data ++ r.temperature.chars ++ ['°', 'C'] ++
            " (feels like ".data ++ r.feels_like.chars ++ ['°', 'C'] ++ [')'] := by
        rw [hgT, tempLine, hsym,
          show ("°C" : String).data = ['°', 'C'] from by decide]
      refine ⟨?_, ?_, hHum, hWind, hVis⟩
      · rw [hlines]
        exact parseTemp_of_getLine _ _ _ 'C' hTip (by decide) (by decide)
          (by decide) hgT2
      · rw [hlines]
        exact parseFeels_of_getLine _ _ _ 'C' hFip (by decide) (by decide)
          (by decide) hgT2
    · have hsym : unit_symbol r.units = "°F" := by rw [hu]; decide
      have hgT2 : getLine (reportLines r) "Temperature:".data =
          "🌡️ Temperature: ".data ++ r.temperature.chars ++ ['°', 'F'] ++
            " (feels like ".data ++ r.feels_like.chars ++ ['°', 'F'] ++ [')'] := by
        rw [hgT, tempLine, hsym,
          show ("°F" : String).data = ['°', 'F'] from by decide]
      refine ⟨?_, ?_, hHum, hWind, hVis⟩
      · rw [hlines]
        exact parseTemp_of_getLine _ _ _ 'F' hTip (by decide) (by decide)
          (by decide) hgT2
      · rw [hlines]
        exact parseFeels_of_getLine _ _ _ 'F' hFip (by decide) (by decide)
          (by decide) hgT2
  · intro hu
    have hsym : unit_symbol r.units = "K" := by rw [hu]; decide
    have hgT2 : getLine (reportLines r) "Temperature:".data =
        "🌡️ Temperature: ".data ++ r.temperature.chars ++ ['K'] ++
          " (feels like ".data ++ r.feels_like.chars ++ ['K'] ++ [')'] := by
      rw [hgT, tempLine, hsym, show ("K" : String).data = ['K'] from by decide]
    refine ⟨?_, ?_, hHum, hWind, hVis⟩
    · rw [hlines]
      exact parseTemp_of_getLine_kelvin _ _ _ hTip hgT2
    · rw [hlines]
      exact parseFeels_of_getLine_kelvin _ _ _ hFip hgT2

/-- The canonical example report rendered with kelvin units. -/
def kelvinReport : WeatherReport :=
  { exampleReport with units := "kelvin" }

/-- C1 counterexample: on a fully-populated kelvin report the rendered
temperature token is `5.0K`, which `float` rejects, so the round trip
recovers neither temperature nor feels-like — against the claim that it
recovers them for all three units. -/
theorem c1_counterexample :
    kelvinReport.units = "kelvin" ∧
    kelvinReport.visibility = some [2, 5, 0, 0] ∧
    parseTemp (pyLines (formatted_response kelvinReport)) = none ∧
    parseFeels (pyLines (formatted_response kelvinReport)) = none := by
  refine ⟨rfl, rfl, ?_, ?_⟩ <;> decide

/-- Witness for C1 (amended) on the canonical metric example report. -/
theorem c1_round_trip_witness :
    Benign exampleReport ∧ exampleReport.visibility = some [2, 5, 0, 0] ∧
    parseTemp (pyLines (formatted_response exampleReport)) =
      some exampleReport.temperature.val :=
  ⟨by unfold Benign; decide, by decide,
    ((c1_round_trip exampleReport [2, 5, 0, 0] (by unfold Benign; decide)
      (by decide) (by decide)).1 (Or.inl rfl)).1⟩

end NimbusMCP
